import Mathlib

/-!
# Verification of the django-hugo configuration / theme engine

This file gives a shallow embedding, in Lean 4, of the configuration and
theme-handling core of the django-hugo repository:

* `src/django_hugo/sites/config.py` — the `HugoConfig` pydantic model with
  its alias resolution, extra-field passthrough, and the
  `toml_to_hugo_config` / `hugo_config_to_toml` conversion functions;
* `src/django_hugo/themes/config.py` — the `ThemeMetadata` / `Author` /
  `OriginalAuthor` pydantic models, the image geometry validators and
  `load_theme_metadata`;
* `src/django_hugo/themes/actions.py` — `find_theme_files` and
  `sync_themes`.

Modelling conventions, fixed once for the whole file:

* A decoded TOML document is a `Value.table`: a list of key/value pairs in
  document order.  The external TOML codec (`tomli.loads` / `tomli_w.dumps`)
  is treated as a faithful bijection between text and decoded tables, so both
  are modelled as the identity and every operation works directly on decoded
  tables.  The value universe covers strings, integers, booleans, arrays and
  tables; TOML floats and datetimes (and pydantic's lax string-to-number
  coercions) are outside the modelled universe.
* A pydantic model is a Lean structure.  A field annotated `T | None` with a
  `None` (or other) default is represented as `Option τ` with `none` meaning
  "not supplied by the document" (TOML cannot express an explicit null, so
  the two cases coincide for parsed documents); `model_dump(...,
  exclude_unset=True, exclude_none=True)` therefore emits exactly the `some`
  fields.
* `HttpUrl` validation is modelled as the check that the string starts with
  an http/https scheme; pydantic's URL normalisation is idempotent and is
  not modelled (it does not affect any claim below).
* A pydantic `ValidationError` makes the whole validation fail, so model
  validation returns `Option`/`Except`.  The payload carried by each error
  constructor mirrors exactly the values interpolated into the Python error
  message at the corresponding `raise`.
-/

/-- A decoded TOML value (`tomli` output): string, integer, boolean, array,
or table.  Tables keep their key order. -/
inductive Value where
  | str (s : String)
  | int (n : Int)
  | bool (b : Bool)
  | arr (elems : List Value)
  | table (pairs : List (String × Value))

/-- A decoded TOML table: the representation of a parsed document. -/
abbrev Table := List (String × Value)

/-- First value stored under `key`, scanning in document order (Python dict
lookup; keys of a decoded TOML table are unique). -/
def tlookup : Table → String → Option Value
  | [], _ => none
  | (k, v) :: rest, key => if k = key then some v else tlookup rest key

/-- Left-biased choice on `Option` (used to chain alias lookups). -/
def oor : Option α → Option α → Option α
  | some v, _ => some v
  | none, b => b

/-- Probe a table for the first alias that is present, in alias order.  This
is the behaviour of pydantic's `AliasChoices("canonical", "lowercase")`. -/
def probe (t : Table) : List String → Option Value
  | [] => none
  | a :: rest => oor (tlookup t a) (probe t rest)

/-- `dict.update` as performed by `hugo_config_to_toml`: keys already in
`base` keep their position but take the value from `upd` when present there;
keys only in `upd` are appended in `upd` order. -/
def dictUpdate (base upd : Table) : Table :=
  base.map (fun p => (p.1, (tlookup upd p.1).getD p.2))
    ++ upd.filter (fun p => (tlookup base p.1).isNone)

/-- The zero-or-one-entry table emitted for one model field by
`model_dump(exclude_unset=True, exclude_none=True)`: nothing for an unset
field, the canonical key otherwise. -/
def optEntry (name : String) : Option Value → Table
  | none => []
  | some v => [(name, v)]

/-- The serialized fields of a model, as a list of
(canonical name, optional dumped value) specifications flattened into a
table. -/
def specTable (specs : List (String × Option Value)) : Table :=
  specs.flatMap fun p => optEntry p.1 p.2

/-! ## Field codecs

One parse/dump pair per field type used by the pydantic models.  Parsing
follows pydantic strict-ish semantics on decoded TOML values; dumping is
`model_dump(mode="json")`, which on this value universe leaves values
unchanged. -/

/-- A `str` field accepts exactly a TOML string. -/
def parseStr : Value → Option String
  | .str s => some s
  | _ => none

/-- An `int` field accepts exactly a TOML integer. -/
def parseInt : Value → Option Int
  | .int n => some n
  | _ => none

/-- A `bool` field accepts exactly a TOML boolean. -/
def parseBool : Value → Option Bool
  | .bool b => some b
  | _ => none

/-- Structural prefix test on character lists (`String.startsWith`, stated
recursively so that it evaluates by kernel reduction). -/
def listIsPrefixOf : List Char → List Char → Bool
  | [], _ => true
  | _ :: _, [] => false
  | a :: as, b :: bs => a == b && listIsPrefixOf as bs

/-- `HttpUrl` acceptance: a string with an http or https scheme. -/
def isHttpUrl (s : String) : Bool :=
  listIsPrefixOf "http://".data s.data || listIsPrefixOf "https://".data s.data

/-- An `HttpUrl` field: a string carrying an http/https URL, kept verbatim
(pydantic's normalisation is idempotent and not modelled). -/
def parseUrl : Value → Option String
  | .str s => if isHttpUrl s then some s else none
  | _ => none

/-- Parse every element of a TOML array with the element parser `p`,
failing if any element fails. -/
def parseItems (p : Value → Option α) : List Value → Option (List α)
  | [] => some []
  | v :: rest => do
      let a ← p v
      let tail ← parseItems p rest
      pure (a :: tail)

/-- A `list[str]` field. -/
def parseStrList : Value → Option (List String)
  | .arr xs => parseItems parseStr xs
  | _ => none

/-- Parse every value of a TOML table with the value parser `p`, keeping the
keys, failing if any value fails (a `dict[str, T]` field). -/
def parsePairs (p : Value → Option α) : List (String × Value) → Option (List (String × α))
  | [] => some []
  | q :: rest => do
      let a ← p q.2
      let tail ← parsePairs p rest
      pure ((q.1, a) :: tail)

/-- A `dict[str, T]` field. -/
def parseDict (p : Value → Option α) : Value → Option (List (String × α))
  | .table t => parsePairs p t
  | _ => none

/-- A `dict` / `dict[str, Any]` field: any TOML table, kept verbatim. -/
def parseAnyTable : Value → Option Table
  | .table t => some t
  | _ => none

/-- Dump of a `list[str]` value. -/
def dumpStrList (l : List String) : Value :=
  .arr (l.map Value.str)

/-- Dump of a `dict[str, T]` value given the element dump `d`. -/
def dumpDict (d : α → Value) (l : List (String × α)) : Value :=
  .table (l.map fun q => (q.1, d q.2))

/-- An optional model field: absent key means `none` (the field keeps its
default), a present key must parse with `p` or the whole validation fails. -/
def parseOptField (t : Table) (aliases : List String) (p : Value → Option α) :
    Option (Option α) :=
  match probe t aliases with
  | none => some none
  | some v => (p v).map some

/-- A required model field: absent key fails validation. -/
def parseReqField (t : Table) (aliases : List String) (p : Value → Option α) :
    Option α :=
  match probe t aliases with
  | none => none
  | some v => p v

/-! ### Generic lemmas about table lookup over dumped field specs -/

theorem oor_none_right (o : Option α) : oor o none = o := by
  cases o <;> rfl

theorem tlookup_append (l1 l2 : Table) (key : String) :
    tlookup (l1 ++ l2) key = oor (tlookup l1 key) (tlookup l2 key) := by
  induction l1 with
  | nil => rfl
  | cons p rest ih =>
      obtain ⟨k, v⟩ := p
      by_cases h : k = key <;> simp [tlookup, h, ih, oor]

theorem tlookup_eq_none_of_keys_ne (l : Table) (key : String)
    (h : ∀ p ∈ l, p.1 ≠ key) : tlookup l key = none := by
  induction l with
  | nil => rfl
  | cons p rest ih =>
      obtain ⟨k, v⟩ := p
      have hk : k ≠ key := h (k, v) (by simp)
      simp only [tlookup, if_neg hk]
      exact ih fun q hq => h q (by simp [hq])

theorem mem_optEntry (name : String) (o : Option Value) (p : String × Value)
    (h : p ∈ optEntry name o) : p.1 = name := by
  cases o with
  | none => simp [optEntry] at h
  | some v =>
      simp [optEntry] at h
      simp [h]

/-- Every key of a dumped spec table is one of the spec names. -/
theorem mem_specTable (specs : List (String × Option Value)) (p : String × Value)
    (h : p ∈ specTable specs) : p.1 ∈ specs.map Prod.fst := by
  induction specs with
  | nil => simp [specTable] at h
  | cons q rest ih =>
      simp only [specTable, List.flatMap_cons] at h
      rcases List.mem_append.mp h with h1 | h2
      · simp [mem_optEntry q.1 q.2 p h1]
      · simpa using Or.inr (ih h2)

theorem tlookup_specTable_of_not_mem (specs : List (String × Option Value))
    (key : String) (h : key ∉ specs.map Prod.fst) :
    tlookup (specTable specs) key = none := by
  refine tlookup_eq_none_of_keys_ne _ _ fun p hp hk => ?_
  exact h (hk ▸ mem_specTable specs p hp)

/-- Looking a spec name up in the dumped spec table recovers exactly the
optional dumped value recorded for that name, when spec names are unique. -/
theorem tlookup_specTable (specs : List (String × Option Value)) (key : String)
    (o : Option Value) (hnd : (specs.map Prod.fst).Nodup)
    (hmem : (key, o) ∈ specs) :
    tlookup (specTable specs) key = o := by
  induction specs with
  | nil => simp at hmem
  | cons q rest ih =>
      obtain ⟨n, ov⟩ := q
      simp only [List.map_cons, List.nodup_cons] at hnd
      rcases List.mem_cons.mp hmem with h1 | h2
      · obtain ⟨hn, ho⟩ := Prod.mk.injEq .. ▸ h1
        subst hn; subst ho
        have hrest : tlookup (specTable rest) key = none :=
          tlookup_specTable_of_not_mem rest key hnd.1
        cases o with
        | none =>
            simpa [specTable, optEntry] using hrest
        | some v =>
            simp [specTable, optEntry, tlookup]
      · have hne : n ≠ key := by
          intro hc
          exact hnd.1 (hc ▸ (by simpa using List.mem_map_of_mem Prod.fst h2))
        have := ih hnd.2 h2
        cases ov with
        | none => simpa [specTable, optEntry] using this
        | some v =>
            simpa [specTable, optEntry, tlookup, hne] using this

theorem parseItems_map_dump (p : Value → Option α) (d : α → Value)
    (hRT : ∀ x, p (d x) = some x) (l : List α) :
    parseItems p (l.map d) = some l := by
  induction l with
  | nil => rfl
  | cons a rest ih => simp [parseItems, hRT, ih]

theorem parsePairs_map_dump (p : Value → Option α) (d : α → Value)
    (hRT : ∀ x, p (d x) = some x) (l : List (String × α)) :
    parsePairs p (l.map fun q => (q.1, d q.2)) = some l := by
  induction l with
  | nil => rfl
  | cons a rest ih => simp [parsePairs, hRT, ih]

theorem parseStrList_dump (l : List String) : parseStrList (dumpStrList l) = some l := by
  simp [parseStrList, dumpStrList, parseItems_map_dump parseStr Value.str (fun _ => rfl)]

theorem parseDict_dump (p : Value → Option α) (d : α → Value)
    (hRT : ∀ x, p (d x) = some x) (l : List (String × α)) :
    parseDict p (dumpDict d l) = some l := by
  simp [parseDict, dumpDict, parsePairs_map_dump p d hRT]

/-- An optional field parsed back from its own dump recovers the field, as
soon as the field's value codec round-trips on the value at hand. -/
theorem parseOptField_of_probe (t : Table) (aliases : List String)
    (p : Value → Option α) (d : α → Value) (o : Option α)
    (hpr : probe t aliases = o.map d) (hRT : ∀ x, p (d x) = some x) :
    parseOptField t aliases p = some o := by
  cases o with
  | none => simp [parseOptField, hpr]
  | some x => simp [parseOptField, hpr, hRT]

/-- `probe` over a dumped spec table, canonical + lowercase alias pair:
finds exactly the dumped optional value of the canonical name. -/
theorem probe_specTable (specs : List (String × Option Value))
    (canon lower : String) (o : Option Value)
    (hnd : (specs.map Prod.fst).Nodup) (hmem : (canon, o) ∈ specs)
    (hlow : lower ∉ specs.map Prod.fst) :
    probe (specTable specs) [canon, lower] = o := by
  show oor (tlookup (specTable specs) canon) (oor (tlookup (specTable specs) lower) none) = o
  rw [tlookup_specTable specs canon o hnd hmem,
    tlookup_specTable_of_not_mem specs lower hlow]
  exact oor_none_right o

/-- `probe` over a dumped spec table for a single-spelling field. -/
theorem probe_specTable_single (specs : List (String × Option Value))
    (canon : String) (o : Option Value)
    (hnd : (specs.map Prod.fst).Nodup) (hmem : (canon, o) ∈ specs) :
    probe (specTable specs) [canon] = o := by
  show oor (tlookup (specTable specs) canon) none = o
  rw [tlookup_specTable specs canon o hnd hmem]
  exact oor_none_right o

/-! ## `HTTPCache` (sites/config.py lines 63-71) -/

structure HTTPCache where
  dir : Option String
  inMemory : Option Bool
  maxSize : Option Int

/-- Validation of the `HTTPCache` sub-model on a decoded table
(`extra` keys are ignored: pydantic default for nested models). -/
def HTTPCache.parseTable (t : Table) : Option HTTPCache := do
  let f1 ← parseOptField t ["dir"] parseStr
  let f2 ← parseOptField t ["inMemory", "inmemory"] parseBool
  let f3 ← parseOptField t ["maxSize", "maxsize"] parseInt
  pure ⟨f1, f2, f3⟩

def HTTPCache.parse : Value → Option HTTPCache
  | .table t => HTTPCache.parseTable t
  | _ => none

/-- The `(canonical key, dumped value)` list emitted for an `HTTPCache` by
`model_dump(mode="json", exclude_unset=True, exclude_none=True)`. -/
def HTTPCache.specs (m : HTTPCache) : List (String × Option Value) :=
  [("dir", m.dir.map Value.str),
   ("inMemory", m.inMemory.map Value.bool),
   ("maxSize", m.maxSize.map Value.int)]

def HTTPCache.dump (m : HTTPCache) : Value := .table (specTable (HTTPCache.specs m))

theorem HTTPCache_specs_names (m : HTTPCache) :
    (HTTPCache.specs m).map Prod.fst = ["dir", "inMemory", "maxSize"] := rfl

theorem HTTPCache_parse_dump (m : HTTPCache) : HTTPCache.parse (HTTPCache.dump m) = some m := by
  have hnd : ((HTTPCache.specs m).map Prod.fst).Nodup := by
    rw [HTTPCache_specs_names]; decide
  simp only [HTTPCache.dump, HTTPCache.parse, HTTPCache.parseTable]
  rw [parseOptField_of_probe _ _ _ Value.str m.dir
      (probe_specTable_single _ _ _ hnd (by simp [HTTPCache.specs])) (fun _ => rfl),
    parseOptField_of_probe _ _ _ Value.bool m.inMemory
      (probe_specTable _ _ _ _ hnd (by simp [HTTPCache.specs])
        (by rw [HTTPCache_specs_names]; decide)) (fun _ => rfl),
    parseOptField_of_probe _ _ _ Value.int m.maxSize
      (probe_specTable _ _ _ _ hnd (by simp [HTTPCache.specs])
        (by rw [HTTPCache_specs_names]; decide)) (fun _ => rfl)]
  rfl

/-! ## `Pagination` (sites/config.py lines 188-195) -/

structure Pagination where
  pagerSize : Option Int
  path : Option String
  disableAliases : Option Bool

def Pagination.parseTable (t : Table) : Option Pagination := do
  let f1 ← parseOptField t ["pagerSize", "pagersize"] parseInt
  let f2 ← parseOptField t ["path"] parseStr
  let f3 ← parseOptField t ["disableAliases", "disablealiases"] parseBool
  pure ⟨f1, f2, f3⟩

def Pagination.parse : Value → Option Pagination
  | .table t => Pagination.parseTable t
  | _ => none

def Pagination.specs (m : Pagination) : List (String × Option Value) :=
  [("pagerSize", m.pagerSize.map Value.int),
   ("path", m.path.map Value.str),
   ("disableAliases", m.disableAliases.map Value.bool)]

def Pagination.dump (m : Pagination) : Value := .table (specTable (Pagination.specs m))

theorem Pagination_specs_names (m : Pagination) :
    (Pagination.specs m).map Prod.fst = ["pagerSize", "path", "disableAliases"] := rfl

theorem Pagination_parse_dump (m : Pagination) :
    Pagination.parse (Pagination.dump m) = some m := by
  have hnd : ((Pagination.specs m).map Prod.fst).Nodup := by
    rw [Pagination_specs_names]; decide
  simp only [Pagination.dump, Pagination.parse, Pagination.parseTable]
  rw [parseOptField_of_probe _ _ _ Value.int m.pagerSize
      (probe_specTable _ _ _ _ hnd (by simp [Pagination.specs])
        (by rw [Pagination_specs_names]; decide)) (fun _ => rfl),
    parseOptField_of_probe _ _ _ Value.str m.path
      (probe_specTable_single _ _ _ hnd (by simp [Pagination.specs])) (fun _ => rfl),
    parseOptField_of_probe _ _ _ Value.bool m.disableAliases
      (probe_specTable _ _ _ _ hnd (by simp [Pagination.specs])
        (by rw [Pagination_specs_names]; decide)) (fun _ => rfl)]
  rfl

/-! ## `BuildConfig` (sites/config.py lines 74-83) -/

structure BuildConfig where
  writeStats : Option Bool
  useResources : Option Bool
  writeToDisk : Option Bool

def BuildConfig.parseTable (t : Table) : Option BuildConfig := do
  let f1 ← parseOptField t ["writeStats", "writestats"] parseBool
  let f2 ← parseOptField t ["useResources", "useresources"] parseBool
  let f3 ← parseOptField t ["writeToDisk", "writetodisk"] parseBool
  pure ⟨f1, f2, f3⟩

def BuildConfig.parse : Value → Option BuildConfig
  | .table t => BuildConfig.parseTable t
  | _ => none

def BuildConfig.specs (m : BuildConfig) : List (String × Option Value) :=
  [("writeStats", m.writeStats.map Value.bool),
   ("useResources", m.useResources.map Value.bool),
   ("writeToDisk", m.writeToDisk.map Value.bool)]

def BuildConfig.dump (m : BuildConfig) : Value := .table (specTable (BuildConfig.specs m))

theorem BuildConfig_specs_names (m : BuildConfig) :
    (BuildConfig.specs m).map Prod.fst = ["writeStats", "useResources", "writeToDisk"] := rfl

theorem BuildConfig_parse_dump (m : BuildConfig) :
    BuildConfig.parse (BuildConfig.dump m) = some m := by
  have hnd : ((BuildConfig.specs m).map Prod.fst).Nodup := by
    rw [BuildConfig_specs_names]; decide
  simp only [BuildConfig.dump, BuildConfig.parse, BuildConfig.parseTable]
  rw [parseOptField_of_probe _ _ _ Value.bool m.writeStats
      (probe_specTable _ _ _ _ hnd (by simp [BuildConfig.specs])
        (by rw [BuildConfig_specs_names]; decide)) (fun _ => rfl),
    parseOptField_of_probe _ _ _ Value.bool m.useResources
      (probe_specTable _ _ _ _ hnd (by simp [BuildConfig.specs])
        (by rw [BuildConfig_specs_names]; decide)) (fun _ => rfl),
    parseOptField_of_probe _ _ _ Value.bool m.writeToDisk
      (probe_specTable _ _ _ _ hnd (by simp [BuildConfig.specs])
        (by rw [BuildConfig_specs_names]; decide)) (fun _ => rfl)]
  rfl

/-! ## `OutputFormats` (sites/config.py lines 94-123) -/

structure OutputFormats where
  mediaType : Option String
  baseName : Option String
  isPlainText : Option Bool
  noUgly : Option Bool
  permalinkable : Option Bool
  isHTML : Option Bool
  isRSS : Option Bool
  isJSON : Option Bool
  isAMP : Option Bool
  rel : Option String
  suffix : Option String
  protocol : Option String

def OutputFormats.parseTable (t : Table) : Option OutputFormats := do
  let f1 ← parseOptField t ["mediaType", "mediatype"] parseStr
  let f2 ← parseOptField t ["baseName", "basename"] parseStr
  let f3 ← parseOptField t ["isPlainText", "isplaintext"] parseBool
  let f4 ← parseOptField t ["noUgly", "nougly"] parseBool
  let f5 ← parseOptField t ["permalinkable"] parseBool
  let f6 ← parseOptField t ["isHTML", "ishtml"] parseBool
  let f7 ← parseOptField t ["isRSS", "isrss"] parseBool
  let f8 ← parseOptField t ["isJSON", "isjson"] parseBool
  let f9 ← parseOptField t ["isAMP", "isamp"] parseBool
  let f10 ← parseOptField t ["rel"] parseStr
  let f11 ← parseOptField t ["suffix"] parseStr
  let f12 ← parseOptField t ["protocol"] parseStr
  pure ⟨f1, f2, f3, f4, f5, f6, f7, f8, f9, f10, f11, f12⟩

def OutputFormats.parse : Value → Option OutputFormats
  | .table t => OutputFormats.parseTable t
  | _ => none

def OutputFormats.specs (m : OutputFormats) : List (String × Option Value) :=
  [("mediaType", m.mediaType.map Value.str),
   ("baseName", m.baseName.map Value.str),
   ("isPlainText", m.isPlainText.map Value.bool),
   ("noUgly", m.noUgly.map Value.bool),
   ("permalinkable", m.permalinkable.map Value.bool),
   ("isHTML", m.isHTML.map Value.bool),
   ("isRSS", m.isRSS.map Value.bool),
   ("isJSON", m.isJSON.map Value.bool),
   ("isAMP", m.isAMP.map Value.bool),
   ("rel", m.rel.map Value.str),
   ("suffix", m.suffix.map Value.str),
   ("protocol", m.protocol.map Value.str)]

def OutputFormats.dump (m : OutputFormats) : Value := .table (specTable (OutputFormats.specs m))

theorem OutputFormats_specs_names (m : OutputFormats) :
    (OutputFormats.specs m).map Prod.fst =
      ["mediaType", "baseName", "isPlainText", "noUgly", "permalinkable",
       "isHTML", "isRSS", "isJSON", "isAMP", "rel", "suffix", "protocol"] := rfl

theorem OutputFormats_parse_dump (m : OutputFormats) :
    OutputFormats.parse (OutputFormats.dump m) = some m := by
  have hnd : ((OutputFormats.specs m).map Prod.fst).Nodup := by
    rw [OutputFormats_specs_names]; decide
  simp only [OutputFormats.dump, OutputFormats.parse, OutputFormats.parseTable]
  rw [parseOptField_of_probe _ _ _ Value.str m.mediaType
      (probe_specTable _ _ _ _ hnd (by simp [OutputFormats.specs])
        (by rw [OutputFormats_specs_names]; decide)) (fun _ => rfl),
    parseOptField_of_probe _ _ _ Value.str m.baseName
      (probe_specTable _ _ _ _ hnd (by simp [OutputFormats.specs])
        (by rw [OutputFormats_specs_names]; decide)) (fun _ => rfl),
    parseOptField_of_probe _ _ _ Value.bool m.isPlainText
      (probe_specTable _ _ _ _ hnd (by simp [OutputFormats.specs])
        (by rw [OutputFormats_specs_names]; decide)) (fun _ => rfl),
    parseOptField_of_probe _ _ _ Value.bool m.noUgly
      (probe_specTable _ _ _ _ hnd (by simp [OutputFormats.specs])
        (by rw [OutputFormats_specs_names]; decide)) (fun _ => rfl),
    parseOptField_of_probe _ _ _ Value.bool m.permalinkable
      (probe_specTable_single _ _ _ hnd (by simp [OutputFormats.specs])) (fun _ => rfl),
    parseOptField_of_probe _ _ _ Value.bool m.isHTML
      (probe_specTable _ _ _ _ hnd (by simp [OutputFormats.specs])
        (by rw [OutputFormats_specs_names]; decide)) (fun _ => rfl),
    parseOptField_of_probe _ _ _ Value.bool m.isRSS
      (probe_specTable _ _ _ _ hnd (by simp [OutputFormats.specs])
        (by rw [OutputFormats_specs_names]; decide)) (fun _ => rfl),
    parseOptField_of_probe _ _ _ Value.bool m.isJSON
      (probe_specTable _ _ _ _ hnd (by simp [OutputFormats.specs])
        (by rw [OutputFormats_specs_names]; decide)) (fun _ => rfl),
    parseOptField_of_probe _ _ _ Value.bool m.isAMP
      (probe_specTable _ _ _ _ hnd (by simp [OutputFormats.specs])
        (by rw [OutputFormats_specs_names]; decide)) (fun _ => rfl),
    parseOptField_of_probe _ _ _ Value.str m.rel
      (probe_specTable_single _ _ _ hnd (by simp [OutputFormats.specs])) (fun _ => rfl),
    parseOptField_of_probe _ _ _ Value.str m.suffix
      (probe_specTable_single _ _ _ hnd (by simp [OutputFormats.specs])) (fun _ => rfl),
    parseOptField_of_probe _ _ _ Value.str m.protocol
      (probe_specTable_single _ _ _ hnd (by simp [OutputFormats.specs])) (fun _ => rfl)]
  rfl

/-! ## `MediaType` (sites/config.py lines 126-135) -/

structure MediaType where
  suffixes : Option (List String)
  delimiter : Option String
  mediaType : Option String
  priority : Option Int
  charset : Option String
  others : Option Table

def MediaType.parseTable (t : Table) : Option MediaType := do
  let f1 ← parseOptField t ["suffixes"] parseStrList
  let f2 ← parseOptField t ["delimiter"] parseStr
  let f3 ← parseOptField t ["mediaType", "mediatype"] parseStr
  let f4 ← parseOptField t ["priority"] parseInt
  let f5 ← parseOptField t ["charset"] parseStr
  let f6 ← parseOptField t ["others"] parseAnyTable
  pure ⟨f1, f2, f3, f4, f5, f6⟩

def MediaType.parse : Value → Option MediaType
  | .table t => MediaType.parseTable t
  | _ => none

def MediaType.specs (m : MediaType) : List (String × Option Value) :=
  [("suffixes", m.suffixes.map dumpStrList),
   ("delimiter", m.delimiter.map Value.str),
   ("mediaType", m.mediaType.map Value.str),
   ("priority", m.priority.map Value.int),
   ("charset", m.charset.map Value.str),
   ("others", m.others.map Value.table)]

def MediaType.dump (m : MediaType) : Value := .table (specTable (MediaType.specs m))

theorem MediaType_specs_names (m : MediaType) :
    (MediaType.specs m).map Prod.fst =
      ["suffixes", "delimiter", "mediaType", "priority", "charset", "others"] := rfl

theorem MediaType_parse_dump (m : MediaType) :
    MediaType.parse (MediaType.dump m) = some m := by
  have hnd : ((MediaType.specs m).map Prod.fst).Nodup := by
    rw [MediaType_specs_names]; decide
  simp only [MediaType.dump, MediaType.parse, MediaType.parseTable]
  rw [parseOptField_of_probe _ _ _ dumpStrList m.suffixes
      (probe_specTable_single _ _ _ hnd (by simp [MediaType.specs])) parseStrList_dump,
    parseOptField_of_probe _ _ _ Value.str m.delimiter
      (probe_specTable_single _ _ _ hnd (by simp [MediaType.specs])) (fun _ => rfl),
    parseOptField_of_probe _ _ _ Value.str m.mediaType
      (probe_specTable _ _ _ _ hnd (by simp [MediaType.specs])
        (by rw [MediaType_specs_names]; decide)) (fun _ => rfl),
    parseOptField_of_probe _ _ _ Value.int m.priority
      (probe_specTable_single _ _ _ hnd (by simp [MediaType.specs])) (fun _ => rfl),
    parseOptField_of_probe _ _ _ Value.str m.charset
      (probe_specTable_single _ _ _ hnd (by simp [MediaType.specs])) (fun _ => rfl),
    parseOptField_of_probe _ _ _ Value.table m.others
      (probe_specTable_single _ _ _ hnd (by simp [MediaType.specs])) (fun _ => rfl)]
  rfl

/-! ## `MarkupGoldmark` (sites/config.py lines 138-141) -/

structure MarkupGoldmark where
  renderer : Option Table
  extensions : Option Table
  parser : Option Table

def MarkupGoldmark.parseTable (t : Table) : Option MarkupGoldmark := do
  let f1 ← parseOptField t ["renderer"] parseAnyTable
  let f2 ← parseOptField t ["extensions"] parseAnyTable
  let f3 ← parseOptField t ["parser"] parseAnyTable
  pure ⟨f1, f2, f3⟩

def MarkupGoldmark.parse : Value → Option MarkupGoldmark
  | .table t => MarkupGoldmark.parseTable t
  | _ => none

def MarkupGoldmark.specs (m : MarkupGoldmark) : List (String × Option Value) :=
  [("renderer", m.renderer.map Value.table),
   ("extensions", m.extensions.map Value.table),
   ("parser", ( MarkupGoldmark.parser m).map Value.table)]

def MarkupGoldmark.dump (m : MarkupGoldmark) : Value :=
  .table (specTable (MarkupGoldmark.specs m))

theorem MarkupGoldmark_specs_names (m : MarkupGoldmark) :
    (MarkupGoldmark.specs m).map Prod.fst = ["renderer", "extensions", "parser"] := rfl

theorem MarkupGoldmark_parse_dump (m : MarkupGoldmark) :
    MarkupGoldmark.parse (MarkupGoldmark.dump m) = some m := by
  have hnd : ((MarkupGoldmark.specs m).map Prod.fst).Nodup := by
    rw [MarkupGoldmark_specs_names]; decide
  simp only [MarkupGoldmark.dump, MarkupGoldmark.parse, MarkupGoldmark.parseTable]
  rw [parseOptField_of_probe _ _ _ Value.table m.renderer
      (probe_specTable_single _ _ _ hnd (by simp [MarkupGoldmark.specs])) (fun _ => rfl),
    parseOptField_of_probe _ _ _ Value.table m.extensions
      (probe_specTable_single _ _ _ hnd (by simp [MarkupGoldmark.specs])) (fun _ => rfl),
    parseOptField_of_probe _ _ _ Value.table ( MarkupGoldmark.parser m)
      (probe_specTable_single _ _ _ hnd (by simp [MarkupGoldmark.specs])) (fun _ => rfl)]
  rfl

/-! ## `MarkupHighlight` (sites/config.py lines 144-166) -/

structure MarkupHighlight where
  noClasses : Option Bool
  guessSyntax : Option Bool
  hl_Lines : Option String
  lineNoStart : Option Int
  lineNosInTable : Option Bool
  lineNumbers : Option Bool
  style : Option String
  tabWidth : Option Int

def MarkupHighlight.parseTable (t : Table) : Option MarkupHighlight := do
  let f1 ← parseOptField t ["noClasses", "noclasses"] parseBool
  let f2 ← parseOptField t ["guessSyntax", "guesssyntax"] parseBool
  let f3 ← parseOptField t ["hl_Lines", "hl_lines"] parseStr
  let f4 ← parseOptField t ["lineNoStart", "linenostart"] parseInt
  let f5 ← parseOptField t ["lineNosInTable", "linenostable"] parseBool
  let f6 ← parseOptField t ["lineNumbers", "linenumbers"] parseBool
  let f7 ← parseOptField t ["style"] parseStr
  let f8 ← parseOptField t ["tabWidth", "tabwidth"] parseInt
  pure ⟨f1, f2, f3, f4, f5, f6, f7, f8⟩

def MarkupHighlight.parse : Value → Option MarkupHighlight
  | .table t => MarkupHighlight.parseTable t
  | _ => none

def MarkupHighlight.specs (m : MarkupHighlight) : List (String × Option Value) :=
  [("noClasses", m.noClasses.map Value.bool),
   ("guessSyntax", ( MarkupHighlight.guessSyntax m).map Value.bool),
   ("hl_Lines", m.hl_Lines.map Value.str),
   ("lineNoStart", m.lineNoStart.map Value.int),
   ("lineNosInTable", m.lineNosInTable.map Value.bool),
   ("lineNumbers", m.lineNumbers.map Value.bool),
   ("style", m.style.map Value.str),
   ("tabWidth", m.tabWidth.map Value.int)]

def MarkupHighlight.dump (m : MarkupHighlight) : Value :=
  .table (specTable (MarkupHighlight.specs m))

theorem MarkupHighlight_specs_names (m : MarkupHighlight) :
    (MarkupHighlight.specs m).map Prod.fst =
      ["noClasses", "guessSyntax", "hl_Lines", "lineNoStart", "lineNosInTable",
       "lineNumbers", "style", "tabWidth"] := rfl

theorem MarkupHighlight_parse_dump (m : MarkupHighlight) :
    MarkupHighlight.parse (MarkupHighlight.dump m) = some m := by
  have hnd : ((MarkupHighlight.specs m).map Prod.fst).Nodup := by
    rw [MarkupHighlight_specs_names]; decide
  simp only [MarkupHighlight.dump, MarkupHighlight.parse, MarkupHighlight.parseTable]
  rw [parseOptField_of_probe _ _ _ Value.bool m.noClasses
      (probe_specTable _ _ _ _ hnd (by simp [MarkupHighlight.specs])
        (by rw [MarkupHighlight_specs_names]; decide)) (fun _ => rfl),
    parseOptField_of_probe _ _ _ Value.bool ( MarkupHighlight.guessSyntax m)
      (probe_specTable _ _ _ _ hnd (by simp [MarkupHighlight.specs])
        (by rw [MarkupHighlight_specs_names]; decide)) (fun _ => rfl),
    parseOptField_of_probe _ _ _ Value.str m.hl_Lines
      (probe_specTable _ _ _ _ hnd (by simp [MarkupHighlight.specs])
        (by rw [MarkupHighlight_specs_names]; decide)) (fun _ => rfl),
    parseOptField_of_probe _ _ _ Value.int m.lineNoStart
      (probe_specTable _ _ _ _ hnd (by simp [MarkupHighlight.specs])
        (by rw [MarkupHighlight_specs_names]; decide)) (fun _ => rfl),
    parseOptField_of_probe _ _ _ Value.bool m.lineNosInTable
      (probe_specTable _ _ _ _ hnd (by simp [MarkupHighlight.specs])
        (by rw [MarkupHighlight_specs_names]; decide)) (fun _ => rfl),
    parseOptField_of_probe _ _ _ Value.bool m.lineNumbers
      (probe_specTable _ _ _ _ hnd (by simp [MarkupHighlight.specs])
        (by rw [MarkupHighlight_specs_names]; decide)) (fun _ => rfl),
    parseOptField_of_probe _ _ _ Value.str m.style
      (probe_specTable_single _ _ _ hnd (by simp [MarkupHighlight.specs])) (fun _ => rfl),
    parseOptField_of_probe _ _ _ Value.int m.tabWidth
      (probe_specTable _ _ _ _ hnd (by simp [MarkupHighlight.specs])
        (by rw [MarkupHighlight_specs_names]; decide)) (fun _ => rfl)]
  rfl

/-! ## `MarkupTableOfContents` (sites/config.py lines 169-176) -/

structure MarkupTableOfContents where
  endLevel : Option Int
  ordered : Option Bool
  startLevel : Option Int

def MarkupTableOfContents.parseTable (t : Table) : Option MarkupTableOfContents := do
  let f1 ← parseOptField t ["endLevel", "endlevel"] parseInt
  let f2 ← parseOptField t ["ordered"] parseBool
  let f3 ← parseOptField t ["startLevel", "startlevel"] parseInt
  pure ⟨f1, f2, f3⟩

def MarkupTableOfContents.parse : Value → Option MarkupTableOfContents
  | .table t => MarkupTableOfContents.parseTable t
  | _ => none

def MarkupTableOfContents.specs (m : MarkupTableOfContents) : List (String × Option Value) :=
  [("endLevel", m.endLevel.map Value.int),
   ("ordered", m.ordered.map Value.bool),
   ("startLevel", m.startLevel.map Value.int)]

def MarkupTableOfContents.dump (m : MarkupTableOfContents) : Value :=
  .table (specTable (MarkupTableOfContents.specs m))

theorem MarkupTableOfContents_specs_names (m : MarkupTableOfContents) :
    (MarkupTableOfContents.specs m).map Prod.fst = ["endLevel", "ordered", "startLevel"] := rfl

theorem MarkupTableOfContents_parse_dump (m : MarkupTableOfContents) :
    MarkupTableOfContents.parse (MarkupTableOfContents.dump m) = some m := by
  have hnd : ((MarkupTableOfContents.specs m).map Prod.fst).Nodup := by
    rw [MarkupTableOfContents_specs_names]; decide
  simp only [MarkupTableOfContents.dump, MarkupTableOfContents.parse,
    MarkupTableOfContents.parseTable]
  rw [parseOptField_of_probe _ _ _ Value.int m.endLevel
      (probe_specTable _ _ _ _ hnd (by simp [MarkupTableOfContents.specs])
        (by rw [MarkupTableOfContents_specs_names]; decide)) (fun _ => rfl),
    parseOptField_of_probe _ _ _ Value.bool m.ordered
      (probe_specTable_single _ _ _ hnd (by simp [MarkupTableOfContents.specs])) (fun _ => rfl),
    parseOptField_of_probe _ _ _ Value.int m.startLevel
      (probe_specTable _ _ _ _ hnd (by simp [MarkupTableOfContents.specs])
        (by rw [MarkupTableOfContents_specs_names]; decide)) (fun _ => rfl)]
  rfl

/-! ## `Markup` (sites/config.py lines 179-185) -/

structure Markup where
  goldmark : Option MarkupGoldmark
  highlight : Option MarkupHighlight
  tableOfContents : Option MarkupTableOfContents

def Markup.parseTable (t : Table) : Option Markup := do
  let f1 ← parseOptField t ["goldmark"] MarkupGoldmark.parse
  let f2 ← parseOptField t ["highlight"] MarkupHighlight.parse
  let f3 ← parseOptField t ["tableOfContents", "tableofcontents"] MarkupTableOfContents.parse
  pure ⟨f1, f2, f3⟩

def Markup.parse : Value → Option Markup
  | .table t => Markup.parseTable t
  | _ => none

def Markup.specs (m : Markup) : List (String × Option Value) :=
  [("goldmark", m.goldmark.map MarkupGoldmark.dump),
   ("highlight", m.highlight.map MarkupHighlight.dump),
   ("tableOfContents", m.tableOfContents.map MarkupTableOfContents.dump)]

def Markup.dump (m : Markup) : Value := .table (specTable (Markup.specs m))

theorem Markup_specs_names (m : Markup) :
    (Markup.specs m).map Prod.fst = ["goldmark", "highlight", "tableOfContents"] := rfl

theorem Markup_parse_dump (m : Markup) : Markup.parse (Markup.dump m) = some m := by
  have hnd : ((Markup.specs m).map Prod.fst).Nodup := by
    rw [Markup_specs_names]; decide
  simp only [Markup.dump, Markup.parse, Markup.parseTable]
  rw [parseOptField_of_probe _ _ _ MarkupGoldmark.dump m.goldmark
      (probe_specTable_single _ _ _ hnd (by simp [Markup.specs])) MarkupGoldmark_parse_dump,
    parseOptField_of_probe _ _ _ MarkupHighlight.dump m.highlight
      (probe_specTable_single _ _ _ hnd (by simp [Markup.specs])) MarkupHighlight_parse_dump,
    parseOptField_of_probe _ _ _ MarkupTableOfContents.dump m.tableOfContents
      (probe_specTable _ _ _ _ hnd (by simp [Markup.specs])
        (by rw [Markup_specs_names]; decide)) MarkupTableOfContents_parse_dump]
  rfl

/-! ## `HugoConfig` (sites/config.py lines 198-364)

The top-level site configuration model.  `model_config = ConfigDict(extra="allow")`:
any top-level key not matching a field alias is kept, unvalidated, in
`__pydantic_extra__`, modelled by the `extra` field below.  A key matching
some field alias is consumed by that field. -/

structure HugoConfig where
  baseURL : String
  build : Option BuildConfig
  buildDrafts : Option Bool
  buildExpired : Option Bool
  buildFuture : Option Bool
  caches : Option Table
  canonifyURLs : Option Bool
  capitalizelistTitles : Option Bool
  cascade : Option Table
  contentTypes : Option Table
  copyright : Option String
  defaultContentLanguage : Option String
  defaultContentLanguageInSubdir : Option Bool
  deployment : Option Table
  disableFastRender : Option Bool
  disableKinds : Option (List String)
  disableLiveReload : Option Bool
  enableEmoji : Option Bool
  enableRobotsTXT : Option Bool
  environment : Option String
  frontmatter : Option Table
  hasCjkLanguage : Option Bool
  HTTPcache : Option HTTPCache
  imaging : Option Table
  languageCode : Option String
  languages : Option Table
  mainSections : Option (List String)
  markup : Option Markup
  mediaTypes : Option (List (String × MediaType))
  menus : Option Table
  minify : Option Table
  module : Option Table
  outputFormats : Option (List (String × OutputFormats))
  outputs : Option (List (String × List String))
  page : Option Table
  pagination : Option Pagination
  params : Option Table
  permalinks : Option Table
  pluralizelistTitles : Option Bool
  privacy : Option Table
  related : Option Table
  sectionPagesMenu : Option String
  security : Option Table
  segments : Option Table
  server : Option Table
  services : Option Table
  sitemap : Option Table
  summaryLength : Option Int
  taxonomies : Option Table
  theme : Option String
  timeZone : Option String
  title : Option String
  uglyURLs : Option Bool
  extra : Table

/-- Every key spelling recognised by some `HugoConfig` field: the canonical
spelling of each field plus, where the source declares
`AliasChoices(canonical, lowercase)`, the all-lowercase legacy spelling.
A top-level document key in this list is consumed by its field; any other
key lands in the extension bag. -/
def aliasNames : List String :=
  ["baseURL", "baseurl", "build", "buildDrafts", "builddrafts",
   "buildExpired", "buildexpired", "buildFuture", "buildfuture", "caches",
   "canonifyURLs", "canonifyurls", "capitalizelistTitles", "capitalizelisttitles",
   "cascade", "contentTypes", "contenttypes", "copyright",
   "defaultContentLanguage", "defaultcontentlanguage",
   "defaultContentLanguageInSubdir", "defaultcontentlanguageinsubdir",
   "deployment", "disableFastRender", "disablefastrender",
   "disableKinds", "disablekinds", "disableLiveReload", "disablelivereload",
   "enableEmoji", "enableemoji", "enableRobotsTXT", "enablerobotstxt",
   "environment", "frontmatter", "hasCjkLanguage", "hascjklanguage",
   "HTTPcache", "httpcache", "imaging", "languageCode", "languagecode",
   "languages", "mainSections", "mainsections", "markup",
   "mediaTypes", "mediatypes", "menus", "minify", "module",
   "outputFormats", "outputformats", "outputs", "page", "pagination",
   "params", "permalinks", "pluralizelistTitles", "pluralizelisttitles",
   "privacy", "related", "sectionPagesMenu", "sectionpagesmenu",
   "security", "segments", "server", "services", "sitemap",
   "summaryLength", "summarylength", "taxonomies", "theme",
   "timeZone", "timezone", "title", "uglyURLs", "uglyurls"]

/-- The extension bag collected by `extra="allow"`: the document's
unrecognised top-level keys, in document order, values verbatim. -/
def extrasOf (t : Table) : Table :=
  t.filter fun p => !(decide (p.1 ∈ aliasNames))

/-! The 53 modeled fields are validated in source order.  To keep the
generated code small they are organised in six groups; each group structure
below is simply a contiguous slice of the `HugoConfig` fields, validated
with exactly the aliases and codecs the source declares. -/

structure ConfigSliceA where
  baseURL : String
  build : Option BuildConfig
  buildDrafts : Option Bool
  buildExpired : Option Bool
  buildFuture : Option Bool
  caches : Option Table
  canonifyURLs : Option Bool
  capitalizelistTitles : Option Bool
  cascade : Option Table

def parseSliceA (t : Table) : Option ConfigSliceA := do
  let f1 ← parseReqField t ["baseURL", "baseurl"] parseUrl
  let f2 ← parseOptField t ["build"] BuildConfig.parse
  let f3 ← parseOptField t ["buildDrafts", "builddrafts"] parseBool
  let f4 ← parseOptField t ["buildExpired", "buildexpired"] parseBool
  let f5 ← parseOptField t ["buildFuture", "buildfuture"] parseBool
  let f6 ← parseOptField t ["caches"] parseAnyTable
  let f7 ← parseOptField t ["canonifyURLs", "canonifyurls"] parseBool
  let f8 ← parseOptField t ["capitalizelistTitles", "capitalizelisttitles"] parseBool
  let f9 ← parseOptField t ["cascade"] parseAnyTable
  pure ⟨f1, f2, f3, f4, f5, f6, f7, f8, f9⟩

structure ConfigSliceB where
  contentTypes : Option Table
  copyright : Option String
  defaultContentLanguage : Option String
  defaultContentLanguageInSubdir : Option Bool
  deployment : Option Table
  disableFastRender : Option Bool
  disableKinds : Option (List String)
  disableLiveReload : Option Bool
  enableEmoji : Option Bool

def parseSliceB (t : Table) : Option ConfigSliceB := do
  let f1 ← parseOptField t ["contentTypes", "contenttypes"] parseAnyTable
  let f2 ← parseOptField t ["copyright"] parseStr
  let f3 ← parseOptField t ["defaultContentLanguage", "defaultcontentlanguage"] parseStr
  let f4 ← parseOptField t
    ["defaultContentLanguageInSubdir", "defaultcontentlanguageinsubdir"] parseBool
  let f5 ← parseOptField t ["deployment"] parseAnyTable
  let f6 ← parseOptField t ["disableFastRender", "disablefastrender"] parseBool
  let f7 ← parseOptField t ["disableKinds", "disablekinds"] parseStrList
  let f8 ← parseOptField t ["disableLiveReload", "disablelivereload"] parseBool
  let f9 ← parseOptField t ["enableEmoji", "enableemoji"] parseBool
  pure ⟨f1, f2, f3, f4, f5, f6, f7, f8, f9⟩

structure ConfigSliceC where
  enableRobotsTXT : Option Bool
  environment : Option String
  frontmatter : Option Table
  hasCjkLanguage : Option Bool
  HTTPcache : Option HTTPCache
  imaging : Option Table
  languageCode : Option String
  languages : Option Table
  mainSections : Option (List String)

def parseSliceC (t : Table) : Option ConfigSliceC := do
  let f1 ← parseOptField t ["enableRobotsTXT", "enablerobotstxt"] parseBool
  let f2 ← parseOptField t ["environment"] parseStr
  let f3 ← parseOptField t ["frontmatter"] parseAnyTable
  let f4 ← parseOptField t ["hasCjkLanguage", "hascjklanguage"] parseBool
  let f5 ← parseOptField t ["HTTPcache", "httpcache"] HTTPCache.parse
  let f6 ← parseOptField t ["imaging"] parseAnyTable
  let f7 ← parseOptField t ["languageCode", "languagecode"] parseStr
  let f8 ← parseOptField t ["languages"] parseAnyTable
  let f9 ← parseOptField t ["mainSections", "mainsections"] parseStrList
  pure ⟨f1, f2, f3, f4, f5, f6, f7, f8, f9⟩

structure ConfigSliceD where
  markup : Option Markup
  mediaTypes : Option (List (String × MediaType))
  menus : Option Table
  minify : Option Table
  module : Option Table
  outputFormats : Option (List (String × OutputFormats))
  outputs : Option (List (String × List String))
  page : Option Table
  pagination : Option Pagination

def parseSliceD (t : Table) : Option ConfigSliceD := do
  let f1 ← parseOptField t ["markup"] Markup.parse
  let f2 ← parseOptField t ["mediaTypes", "mediatypes"] (parseDict MediaType.parse)
  let f3 ← parseOptField t ["menus"] parseAnyTable
  let f4 ← parseOptField t ["minify"] parseAnyTable
  let f5 ← parseOptField t ["module"] parseAnyTable
  let f6 ← parseOptField t ["outputFormats", "outputformats"] (parseDict OutputFormats.parse)
  let f7 ← parseOptField t ["outputs"] (parseDict parseStrList)
  let f8 ← parseOptField t ["page"] parseAnyTable
  let f9 ← parseOptField t ["pagination"] Pagination.parse
  pure ⟨f1, f2, f3, f4, f5, f6, f7, f8, f9⟩

structure ConfigSliceE where
  params : Option Table
  permalinks : Option Table
  pluralizelistTitles : Option Bool
  privacy : Option Table
  related : Option Table
  sectionPagesMenu : Option String
  security : Option Table
  segments : Option Table
  server : Option Table

def parseSliceE (t : Table) : Option ConfigSliceE := do
  let f1 ← parseOptField t ["params"] parseAnyTable
  let f2 ← parseOptField t ["permalinks"] parseAnyTable
  let f3 ← parseOptField t ["pluralizelistTitles", "pluralizelisttitles"] parseBool
  let f4 ← parseOptField t ["privacy"] parseAnyTable
  let f5 ← parseOptField t ["related"] parseAnyTable
  let f6 ← parseOptField t ["sectionPagesMenu", "sectionpagesmenu"] parseStr
  let f7 ← parseOptField t ["security"] parseAnyTable
  let f8 ← parseOptField t ["segments"] parseAnyTable
  let f9 ← parseOptField t ["server"] parseAnyTable
  pure ⟨f1, f2, f3, f4, f5, f6, f7, f8, f9⟩

structure ConfigSliceF where
  services : Option Table
  sitemap : Option Table
  summaryLength : Option Int
  taxonomies : Option Table
  theme : Option String
  timeZone : Option String
  title : Option String
  uglyURLs : Option Bool

def parseSliceF (t : Table) : Option ConfigSliceF := do
  let f1 ← parseOptField t ["services"] parseAnyTable
  let f2 ← parseOptField t ["sitemap"] parseAnyTable
  let f3 ← parseOptField t ["summaryLength", "summarylength"] parseInt
  let f4 ← parseOptField t ["taxonomies"] parseAnyTable
  let f5 ← parseOptField t ["theme"] parseStr
  let f6 ← parseOptField t ["timeZone", "timezone"] parseStr
  let f7 ← parseOptField t ["title"] parseStr
  let f8 ← parseOptField t ["uglyURLs", "uglyurls"] parseBool
  pure ⟨f1, f2, f3, f4, f5, f6, f7, f8⟩

/-- Reassemble a `HugoConfig` from the six validated slices plus the
extension bag. -/
def assembleConfig (a : ConfigSliceA) (b : ConfigSliceB) (c : ConfigSliceC)
    (d : ConfigSliceD) (e : ConfigSliceE) (f : ConfigSliceF) (extra : Table) :
    HugoConfig :=
  ⟨a.baseURL, a.build, a.buildDrafts, a.buildExpired, a.buildFuture, a.caches,
   a.canonifyURLs, a.capitalizelistTitles, a.cascade,
   b.contentTypes, b.copyright, b.defaultContentLanguage,
   b.defaultContentLanguageInSubdir, b.deployment, b.disableFastRender,
   b.disableKinds, b.disableLiveReload, b.enableEmoji,
   c.enableRobotsTXT, c.environment, c.frontmatter, c.hasCjkLanguage,
   c.HTTPcache, c.imaging, c.languageCode, c.languages, c.mainSections,
   d.markup, d.mediaTypes, d.menus, d.minify, d.module, d.outputFormats,
   d.outputs, d.page, d.pagination,
   e.params, e.permalinks, e.pluralizelistTitles, e.privacy, e.related,
   e.sectionPagesMenu, e.security, e.segments, e.server,
   f.services, f.sitemap, f.summaryLength, f.taxonomies, f.theme,
   f.timeZone, f.title, f.uglyURLs, extra⟩

/-- `HugoConfig.model_validate` on a decoded document table.  `baseURL` is
required (its absence, or any field-level type failure, fails the whole
validation as pydantic's `ValidationError` does); every other modeled field
is optional; unmatched top-level keys are collected into the extension
bag. -/
def HugoConfig.parseTable (t : Table) : Option HugoConfig := do
  let a ← parseSliceA t
  let b ← parseSliceB t
  let c ← parseSliceC t
  let d ← parseSliceD t
  let e ← parseSliceE t
  let f ← parseSliceF t
  pure (assembleConfig a b c d e f (extrasOf t))

/-- `toml_to_hugo_config` (sites/config.py lines 367-382): decode the TOML
text, then `HugoConfig.model_validate`.  The text/table codec is the
identity in this embedding, so the function acts on decoded tables. -/
def toml_to_hugo_config (t : Table) : Option HugoConfig :=
  HugoConfig.parseTable t

/-- The `(canonical key, dumped value)` entries emitted for a `HugoConfig` by
`model_dump(mode="json", exclude_unset=True, exclude_none=True)`: set fields
only, canonical spellings, model field order.  Split into the same six
slices as validation, purely to keep the generated code small. -/
def specsSliceA (c : HugoConfig) : List (String × Option Value) :=
  [("baseURL", some (Value.str c.baseURL)),
   ("build", c.build.map BuildConfig.dump),
   ("buildDrafts", c.buildDrafts.map Value.bool),
   ("buildExpired", c.buildExpired.map Value.bool),
   ("buildFuture", c.buildFuture.map Value.bool),
   ("caches", c.caches.map Value.table),
   ("canonifyURLs", c.canonifyURLs.map Value.bool),
   ("capitalizelistTitles", c.capitalizelistTitles.map Value.bool),
   ("cascade", c.cascade.map Value.table)]

def specsSliceB (c : HugoConfig) : List (String × Option Value) :=
  [("contentTypes", c.contentTypes.map Value.table),
   ("copyright", c.copyright.map Value.str),
   ("defaultContentLanguage", c.defaultContentLanguage.map Value.str),
   ("defaultContentLanguageInSubdir", c.defaultContentLanguageInSubdir.map Value.bool),
   ("deployment", c.deployment.map Value.table),
   ("disableFastRender", c.disableFastRender.map Value.bool),
   ("disableKinds", c.disableKinds.map dumpStrList),
   ("disableLiveReload", c.disableLiveReload.map Value.bool),
   ("enableEmoji", c.enableEmoji.map Value.bool)]

def specsSliceC (c : HugoConfig) : List (String × Option Value) :=
  [("enableRobotsTXT", c.enableRobotsTXT.map Value.bool),
   ("environment", c.environment.map Value.str),
   ("frontmatter", c.frontmatter.map Value.table),
   ("hasCjkLanguage", c.hasCjkLanguage.map Value.bool),
   ("HTTPcache", c.HTTPcache.map HTTPCache.dump),
   ("imaging", c.imaging.map Value.table),
   ("languageCode", c.languageCode.map Value.str),
   ("languages", c.languages.map Value.table),
   ("mainSections", c.mainSections.map dumpStrList)]

def specsSliceD (c : HugoConfig) : List (String × Option Value) :=
  [("markup", c.markup.map Markup.dump),
   ("mediaTypes", c.mediaTypes.map (dumpDict MediaType.dump)),
   ("menus", c.menus.map Value.table),
   ("minify", c.minify.map Value.table),
   ("module", c.module.map Value.table),
   ("outputFormats", c.outputFormats.map (dumpDict OutputFormats.dump)),
   ("outputs", c.outputs.map (dumpDict dumpStrList)),
   ("page", c.page.map Value.table),
   ("pagination", c.pagination.map Pagination.dump)]

def specsSliceE (c : HugoConfig) : List (String × Option Value) :=
  [("params", c.params.map Value.table),
   ("permalinks", c.permalinks.map Value.table),
   ("pluralizelistTitles", c.pluralizelistTitles.map Value.bool),
   ("privacy", c.privacy.map Value.table),
   ("related", c.related.map Value.table),
   ("sectionPagesMenu", c.sectionPagesMenu.map Value.str),
   ("security", c.security.map Value.table),
   ("segments", c.segments.map Value.table),
   ("server", c.server.map Value.table)]

def specsSliceF (c : HugoConfig) : List (String × Option Value) :=
  [("services", c.services.map Value.table),
   ("sitemap", c.sitemap.map Value.table),
   ("summaryLength", c.summaryLength.map Value.int),
   ("taxonomies", c.taxonomies.map Value.table),
   ("theme", c.theme.map Value.str),
   ("timeZone", c.timeZone.map Value.str),
   ("title", c.title.map Value.str),
   ("uglyURLs", c.uglyURLs.map Value.bool)]

def HugoConfig.specs (c : HugoConfig) : List (String × Option Value) :=
  specsSliceA c ++ specsSliceB c ++ specsSliceC c ++ specsSliceD c
    ++ specsSliceE c ++ specsSliceF c

/-- `hugo_config_to_toml` (sites/config.py lines 385-402): dump the set
fields, then `data.update(__pydantic_extra__)` (Python `dict.update`
semantics), then encode — the encoder being the identity here. -/
def hugo_config_to_toml (c : HugoConfig) : Table :=
  dictUpdate (specTable (HugoConfig.specs c)) c.extra

theorem HugoConfig_specs_names (c : HugoConfig) :
    (HugoConfig.specs c).map Prod.fst =
      ["baseURL", "build", "buildDrafts", "buildExpired", "buildFuture",
       "caches", "canonifyURLs", "capitalizelistTitles", "cascade",
       "contentTypes", "copyright", "defaultContentLanguage",
       "defaultContentLanguageInSubdir", "deployment", "disableFastRender",
       "disableKinds", "disableLiveReload", "enableEmoji", "enableRobotsTXT",
       "environment", "frontmatter", "hasCjkLanguage", "HTTPcache", "imaging",
       "languageCode", "languages", "mainSections", "markup", "mediaTypes",
       "menus", "minify", "module", "outputFormats", "outputs", "page",
       "pagination", "params", "permalinks", "pluralizelistTitles", "privacy",
       "related", "sectionPagesMenu", "security", "segments", "server",
       "services", "sitemap", "summaryLength", "taxonomies", "theme",
       "timeZone", "title", "uglyURLs"] := rfl

/-! ### Round-trip lemmas for `HugoConfig` -/

theorem tlookup_extra_none (extra : Table) (key : String)
    (hex : ∀ q ∈ extra, q.1 ∉ aliasNames) (hkey : key ∈ aliasNames) :
    tlookup extra key = none :=
  tlookup_eq_none_of_keys_ne extra key fun q hq heq => hex q hq (heq ▸ hkey)

/-- Alias probe over serialized fields followed by the extension bag,
canonical + lowercase spelling: recovers the dumped field value.  The
extension bag cannot interfere: its keys are unrecognised by construction. -/
theorem probe_dump_extra_two (specs : List (String × Option Value)) (extra : Table)
    (canon lower : String) (o : Option Value)
    (hnd : (specs.map Prod.fst).Nodup) (hmem : (canon, o) ∈ specs)
    (hlow : lower ∉ specs.map Prod.fst)
    (hex : ∀ q ∈ extra, q.1 ∉ aliasNames)
    (hc : canon ∈ aliasNames) (hl : lower ∈ aliasNames) :
    probe (specTable specs ++ extra) [canon, lower] = o := by
  show oor (tlookup (specTable specs ++ extra) canon)
      (oor (tlookup (specTable specs ++ extra) lower) none) = o
  rw [tlookup_append, tlookup_append,
    tlookup_specTable specs canon o hnd hmem,
    tlookup_specTable_of_not_mem specs lower hlow,
    tlookup_extra_none extra canon hex hc,
    tlookup_extra_none extra lower hex hl]
  simp only [oor_none_right]

/-- As `probe_dump_extra_two`, for a field with a single accepted spelling. -/
theorem probe_dump_extra_one (specs : List (String × Option Value)) (extra : Table)
    (canon : String) (o : Option Value)
    (hnd : (specs.map Prod.fst).Nodup) (hmem : (canon, o) ∈ specs)
    (hex : ∀ q ∈ extra, q.1 ∉ aliasNames) (hc : canon ∈ aliasNames) :
    probe (specTable specs ++ extra) [canon] = o := by
  show oor (tlookup (specTable specs ++ extra) canon) none = o
  rw [tlookup_append, tlookup_specTable specs canon o hnd hmem,
    tlookup_extra_none extra canon hex hc]
  simp only [oor_none_right]

theorem parseReqField_url (t : Table) (al : List String) (u : String)
    (hpr : probe t al = some (Value.str u)) (hurl : isHttpUrl u = true) :
    parseReqField t al parseUrl = some u := by
  simp [parseReqField, hpr, parseUrl, hurl]

/-- `dict.update` on maps with disjoint key sets is concatenation. -/
theorem dictUpdate_of_disjoint (base upd : Table)
    (h1 : ∀ p ∈ base, tlookup upd p.1 = none)
    (h2 : ∀ q ∈ upd, tlookup base q.1 = none) :
    dictUpdate base upd = base ++ upd := by
  unfold dictUpdate
  have hmap : base.map (fun p => (p.1, (tlookup upd p.1).getD p.2)) = base := by
    conv_rhs => rw [← List.map_id base]
    exact List.map_congr_left fun p hp => by rw [h1 p hp]; rfl
  have hfil : upd.filter (fun p => (tlookup base p.1).isNone) = upd :=
    List.filter_eq_self.mpr fun q hq => by rw [h2 q hq]; rfl
  rw [hmap, hfil]

theorem hugoCanon_sub_alias :
    ∀ x ∈ (["baseURL", "build", "buildDrafts", "buildExpired", "buildFuture",
       "caches", "canonifyURLs", "capitalizelistTitles", "cascade",
       "contentTypes", "copyright", "defaultContentLanguage",
       "defaultContentLanguageInSubdir", "deployment", "disableFastRender",
       "disableKinds", "disableLiveReload", "enableEmoji", "enableRobotsTXT",
       "environment", "frontmatter", "hasCjkLanguage", "HTTPcache", "imaging",
       "languageCode", "languages", "mainSections", "markup", "mediaTypes",
       "menus", "minify", "module", "outputFormats", "outputs", "page",
       "pagination", "params", "permalinks", "pluralizelistTitles", "privacy",
       "related", "sectionPagesMenu", "security", "segments", "server",
       "services", "sitemap", "summaryLength", "taxonomies", "theme",
       "timeZone", "title", "uglyURLs"] : List String), x ∈ aliasNames := by
  decide

/-- The serializer's `dict.update` merge degenerates to appending the
extension bag after the fields whenever bag keys are unrecognised — which
the parser guarantees. -/
theorem hugo_config_to_toml_eq (c : HugoConfig)
    (hex : ∀ q ∈ c.extra, q.1 ∉ aliasNames) :
    hugo_config_to_toml c = specTable (HugoConfig.specs c) ++ c.extra := by
  unfold hugo_config_to_toml
  apply dictUpdate_of_disjoint
  · intro p hp
    have hmemA : p.1 ∈ (HugoConfig.specs c).map Prod.fst := mem_specTable _ p hp
    rw [HugoConfig_specs_names] at hmemA
    exact tlookup_extra_none c.extra p.1 hex (hugoCanon_sub_alias _ hmemA)
  · intro q hq
    apply tlookup_specTable_of_not_mem
    rw [HugoConfig_specs_names]
    intro hmem
    exact hex q hq (hugoCanon_sub_alias _ hmem)

/-- Re-collecting the extension bag from the serialized document recovers
exactly the original bag. -/
theorem extrasOf_dump (c : HugoConfig)
    (hex : ∀ q ∈ c.extra, q.1 ∉ aliasNames) :
    extrasOf (specTable (HugoConfig.specs c) ++ c.extra) = c.extra := by
  unfold extrasOf
  rw [List.filter_append]
  have h1 : (specTable (HugoConfig.specs c)).filter
      (fun p => !(decide (p.1 ∈ aliasNames))) = [] := by
    rw [List.filter_eq_nil_iff]
    intro p hp
    have hmemA : p.1 ∈ (HugoConfig.specs c).map Prod.fst := mem_specTable _ p hp
    rw [HugoConfig_specs_names] at hmemA
    simp [hugoCanon_sub_alias _ hmemA]
  have h2 : c.extra.filter (fun p => !(decide (p.1 ∈ aliasNames))) = c.extra := by
    rw [List.filter_eq_self]
    intro q hq
    simp [hex q hq]
  rw [h1, h2, List.nil_append]

theorem mem_specsA (c : HugoConfig) (p : String × Option Value)
    (h : p ∈ specsSliceA c) : p ∈ HugoConfig.specs c :=
  List.mem_append_left _ (List.mem_append_left _ (List.mem_append_left _
    (List.mem_append_left _ (List.mem_append_left _ h))))

theorem mem_specsB (c : HugoConfig) (p : String × Option Value)
    (h : p ∈ specsSliceB c) : p ∈ HugoConfig.specs c :=
  List.mem_append_left _ (List.mem_append_left _ (List.mem_append_left _
    (List.mem_append_left _ (List.mem_append_right _ h))))

theorem mem_specsC (c : HugoConfig) (p : String × Option Value)
    (h : p ∈ specsSliceC c) : p ∈ HugoConfig.specs c :=
  List.mem_append_left _ (List.mem_append_left _ (List.mem_append_left _
    (List.mem_append_right _ h)))

theorem mem_specsD (c : HugoConfig) (p : String × Option Value)
    (h : p ∈ specsSliceD c) : p ∈ HugoConfig.specs c :=
  List.mem_append_left _ (List.mem_append_left _ (List.mem_append_right _ h))

theorem mem_specsE (c : HugoConfig) (p : String × Option Value)
    (h : p ∈ specsSliceE c) : p ∈ HugoConfig.specs c :=
  List.mem_append_left _ (List.mem_append_right _ h)

theorem mem_specsF (c : HugoConfig) (p : String × Option Value)
    (h : p ∈ specsSliceF c) : p ∈ HugoConfig.specs c :=
  List.mem_append_right _ h

theorem parseSliceA_dump (c : HugoConfig) (hurl : isHttpUrl c.baseURL = true)
    (hex : ∀ q ∈ c.extra, q.1 ∉ aliasNames) :
    parseSliceA (specTable (HugoConfig.specs c) ++ c.extra) =
      some ⟨c.baseURL, c.build, c.buildDrafts, c.buildExpired, c.buildFuture,
        c.caches, c.canonifyURLs, c.capitalizelistTitles, c.cascade⟩ := by
  have hnd : ((HugoConfig.specs c).map Prod.fst).Nodup := by
    rw [HugoConfig_specs_names]; decide
  simp only [parseSliceA]
  rw [parseReqField_url _ _ c.baseURL
      (probe_dump_extra_two _ _ "baseURL" "baseurl" (some (Value.str c.baseURL)) hnd
        (mem_specsA c _ (by simp [specsSliceA]))
        (by rw [HugoConfig_specs_names]; decide) hex (by decide) (by decide)) hurl,
    parseOptField_of_probe _ _ _ BuildConfig.dump c.build
      (probe_dump_extra_one _ _ "build" _ hnd
        (mem_specsA c _ (by simp [specsSliceA])) hex (by decide))
      BuildConfig_parse_dump,
    parseOptField_of_probe _ _ _ Value.bool c.buildDrafts
      (probe_dump_extra_two _ _ "buildDrafts" "builddrafts" _ hnd
        (mem_specsA c _ (by simp [specsSliceA]))
        (by rw [HugoConfig_specs_names]; decide) hex (by decide) (by decide))
      (fun _ => rfl),
    parseOptField_of_probe _ _ _ Value.bool c.buildExpired
      (probe_dump_extra_two _ _ "buildExpired" "buildexpired" _ hnd
        (mem_specsA c _ (by simp [specsSliceA]))
        (by rw [HugoConfig_specs_names]; decide) hex (by decide) (by decide))
      (fun _ => rfl),
    parseOptField_of_probe _ _ _ Value.bool c.buildFuture
      (probe_dump_extra_two _ _ "buildFuture" "buildfuture" _ hnd
        (mem_specsA c _ (by simp [specsSliceA]))
        (by rw [HugoConfig_specs_names]; decide) hex (by decide) (by decide))
      (fun _ => rfl),
    parseOptField_of_probe _ _ _ Value.table c.caches
      (probe_dump_extra_one _ _ "caches" _ hnd
        (mem_specsA c _ (by simp [specsSliceA])) hex (by decide))
      (fun _ => rfl),
    parseOptField_of_probe _ _ _ Value.bool c.canonifyURLs
      (probe_dump_extra_two _ _ "canonifyURLs" "canonifyurls" _ hnd
        (mem_specsA c _ (by simp [specsSliceA]))
        (by rw [HugoConfig_specs_names]; decide) hex (by decide) (by decide))
      (fun _ => rfl),
    parseOptField_of_probe _ _ _ Value.bool c.capitalizelistTitles
      (probe_dump_extra_two _ _ "capitalizelistTitles" "capitalizelisttitles" _ hnd
        (mem_specsA c _ (by simp [specsSliceA]))
        (by rw [HugoConfig_specs_names]; decide) hex (by decide) (by decide))
      (fun _ => rfl),
    parseOptField_of_probe _ _ _ Value.table c.cascade
      (probe_dump_extra_one _ _ "cascade" _ hnd
        (mem_specsA c _ (by simp [specsSliceA])) hex (by decide))
      (fun _ => rfl)]
  rfl

theorem parseSliceB_dump (c : HugoConfig)
    (hex : ∀ q ∈ c.extra, q.1 ∉ aliasNames) :
    parseSliceB (specTable (HugoConfig.specs c) ++ c.extra) =
      some ⟨c.contentTypes, c.copyright, c.defaultContentLanguage, c.defaultContentLanguageInSubdir, c.deployment, c.disableFastRender, c.disableKinds, c.disableLiveReload, c.enableEmoji⟩ := by
  have hnd : ((HugoConfig.specs c).map Prod.fst).Nodup := by
    rw [HugoConfig_specs_names]; decide
  simp only [parseSliceB]
  rw [parseOptField_of_probe _ _ _ Value.table c.contentTypes
      (probe_dump_extra_two _ _ "contentTypes" "contenttypes" _ hnd
        (mem_specsB c _ (by simp [specsSliceB]))
        (by rw [HugoConfig_specs_names]; decide) hex (by decide) (by decide))
      (fun _ => rfl),
    parseOptField_of_probe _ _ _ Value.str c.copyright
      (probe_dump_extra_one _ _ "copyright" _ hnd
        (mem_specsB c _ (by simp [specsSliceB])) hex (by decide))
      (fun _ => rfl),
    parseOptField_of_probe _ _ _ Value.str c.defaultContentLanguage
      (probe_dump_extra_two _ _ "defaultContentLanguage" "defaultcontentlanguage" _ hnd
        (mem_specsB c _ (by simp [specsSliceB]))
        (by rw [HugoConfig_specs_names]; decide) hex (by decide) (by decide))
      (fun _ => rfl),
    parseOptField_of_probe _ _ _ Value.bool c.defaultContentLanguageInSubdir
      (probe_dump_extra_two _ _ "defaultContentLanguageInSubdir" "defaultcontentlanguageinsubdir" _ hnd
        (mem_specsB c _ (by simp [specsSliceB]))
        (by rw [HugoConfig_specs_names]; decide) hex (by decide) (by decide))
      (fun _ => rfl),
    parseOptField_of_probe _ _ _ Value.table c.deployment
      (probe_dump_extra_one _ _ "deployment" _ hnd
        (mem_specsB c _ (by simp [specsSliceB])) hex (by decide))
      (fun _ => rfl),
    parseOptField_of_probe _ _ _ Value.bool c.disableFastRender
      (probe_dump_extra_two _ _ "disableFastRender" "disablefastrender" _ hnd
        (mem_specsB c _ (by simp [specsSliceB]))
        (by rw [HugoConfig_specs_names]; decide) hex (by decide) (by decide))
      (fun _ => rfl),
    parseOptField_of_probe _ _ _ dumpStrList c.disableKinds
      (probe_dump_extra_two _ _ "disableKinds" "disablekinds" _ hnd
        (mem_specsB c _ (by simp [specsSliceB]))
        (by rw [HugoConfig_specs_names]; decide) hex (by decide) (by decide))
      parseStrList_dump,
    parseOptField_of_probe _ _ _ Value.bool c.disableLiveReload
      (probe_dump_extra_two _ _ "disableLiveReload" "disablelivereload" _ hnd
        (mem_specsB c _ (by simp [specsSliceB]))
        (by rw [HugoConfig_specs_names]; decide) hex (by decide) (by decide))
      (fun _ => rfl),
    parseOptField_of_probe _ _ _ Value.bool c.enableEmoji
      (probe_dump_extra_two _ _ "enableEmoji" "enableemoji" _ hnd
        (mem_specsB c _ (by simp [specsSliceB]))
        (by rw [HugoConfig_specs_names]; decide) hex (by decide) (by decide))
      (fun _ => rfl)]
  rfl


theorem parseSliceC_dump (c : HugoConfig)
    (hex : ∀ q ∈ c.extra, q.1 ∉ aliasNames) :
    parseSliceC (specTable (HugoConfig.specs c) ++ c.extra) =
      some ⟨c.enableRobotsTXT, c.environment, c.frontmatter, c.hasCjkLanguage, c.HTTPcache, c.imaging, c.languageCode, c.languages, c.mainSections⟩ := by
  have hnd : ((HugoConfig.specs c).map Prod.fst).Nodup := by
    rw [HugoConfig_specs_names]; decide
  simp only [parseSliceC]
  rw [parseOptField_of_probe _ _ _ Value.bool c.enableRobotsTXT
      (probe_dump_extra_two _ _ "enableRobotsTXT" "enablerobotstxt" _ hnd
        (mem_specsC c _ (by simp [specsSliceC]))
        (by rw [HugoConfig_specs_names]; decide) hex (by decide) (by decide))
      (fun _ => rfl),
    parseOptField_of_probe _ _ _ Value.str c.environment
      (probe_dump_extra_one _ _ "environment" _ hnd
        (mem_specsC c _ (by simp [specsSliceC])) hex (by decide))
      (fun _ => rfl),
    parseOptField_of_probe _ _ _ Value.table c.frontmatter
      (probe_dump_extra_one _ _ "frontmatter" _ hnd
        (mem_specsC c _ (by simp [specsSliceC])) hex (by decide))
      (fun _ => rfl),
    parseOptField_of_probe _ _ _ Value.bool c.hasCjkLanguage
      (probe_dump_extra_two _ _ "hasCjkLanguage" "hascjklanguage" _ hnd
        (mem_specsC c _ (by simp [specsSliceC]))
        (by rw [HugoConfig_specs_names]; decide) hex (by decide) (by decide))
      (fun _ => rfl),
    parseOptField_of_probe _ _ _ HTTPCache.dump c.HTTPcache
      (probe_dump_extra_two _ _ "HTTPcache" "httpcache" _ hnd
        (mem_specsC c _ (by simp [specsSliceC]))
        (by rw [HugoConfig_specs_names]; decide) hex (by decide) (by decide))
      HTTPCache_parse_dump,
    parseOptField_of_probe _ _ _ Value.table c.imaging
      (probe_dump_extra_one _ _ "imaging" _ hnd
        (mem_specsC c _ (by simp [specsSliceC])) hex (by decide))
      (fun _ => rfl),
    parseOptField_of_probe _ _ _ Value.str c.languageCode
      (probe_dump_extra_two _ _ "languageCode" "languagecode" _ hnd
        (mem_specsC c _ (by simp [specsSliceC]))
        (by rw [HugoConfig_specs_names]; decide) hex (by decide) (by decide))
      (fun _ => rfl),
    parseOptField_of_probe _ _ _ Value.table c.languages
      (probe_dump_extra_one _ _ "languages" _ hnd
        (mem_specsC c _ (by simp [specsSliceC])) hex (by decide))
      (fun _ => rfl),
    parseOptField_of_probe _ _ _ dumpStrList c.mainSections
      (probe_dump_extra_two _ _ "mainSections" "mainsections" _ hnd
        (mem_specsC c _ (by simp [specsSliceC]))
        (by rw [HugoConfig_specs_names]; decide) hex (by decide) (by decide))
      parseStrList_dump]
  rfl


theorem parseSliceD_dump (c : HugoConfig)
    (hex : ∀ q ∈ c.extra, q.1 ∉ aliasNames) :
    parseSliceD (specTable (HugoConfig.specs c) ++ c.extra) =
      some ⟨c.markup, c.mediaTypes, c.menus, c.minify, c.module, c.outputFormats, c.outputs, c.page, c.pagination⟩ := by
  have hnd : ((HugoConfig.specs c).map Prod.fst).Nodup := by
    rw [HugoConfig_specs_names]; decide
  simp only [parseSliceD]
  rw [parseOptField_of_probe _ _ _ Markup.dump c.markup
      (probe_dump_extra_one _ _ "markup" _ hnd
        (mem_specsD c _ (by simp [specsSliceD])) hex (by decide))
      Markup_parse_dump,
    parseOptField_of_probe _ _ _ (dumpDict MediaType.dump) c.mediaTypes
      (probe_dump_extra_two _ _ "mediaTypes" "mediatypes" _ hnd
        (mem_specsD c _ (by simp [specsSliceD]))
        (by rw [HugoConfig_specs_names]; decide) hex (by decide) (by decide))
      (parseDict_dump MediaType.parse MediaType.dump MediaType_parse_dump),
    parseOptField_of_probe _ _ _ Value.table c.menus
      (probe_dump_extra_one _ _ "menus" _ hnd
        (mem_specsD c _ (by simp [specsSliceD])) hex (by decide))
      (fun _ => rfl),
    parseOptField_of_probe _ _ _ Value.table c.minify
      (probe_dump_extra_one _ _ "minify" _ hnd
        (mem_specsD c _ (by simp [specsSliceD])) hex (by decide))
      (fun _ => rfl),
    parseOptField_of_probe _ _ _ Value.table c.module
      (probe_dump_extra_one _ _ "module" _ hnd
        (mem_specsD c _ (by simp [specsSliceD])) hex (by decide))
      (fun _ => rfl),
    parseOptField_of_probe _ _ _ (dumpDict OutputFormats.dump) c.outputFormats
      (probe_dump_extra_two _ _ "outputFormats" "outputformats" _ hnd
        (mem_specsD c _ (by simp [specsSliceD]))
        (by rw [HugoConfig_specs_names]; decide) hex (by decide) (by decide))
      (parseDict_dump OutputFormats.parse OutputFormats.dump OutputFormats_parse_dump),
    parseOptField_of_probe _ _ _ (dumpDict dumpStrList) c.outputs
      (probe_dump_extra_one _ _ "outputs" _ hnd
        (mem_specsD c _ (by simp [specsSliceD])) hex (by decide))
      (parseDict_dump parseStrList dumpStrList parseStrList_dump),
    parseOptField_of_probe _ _ _ Value.table c.page
      (probe_dump_extra_one _ _ "page" _ hnd
        (mem_specsD c _ (by simp [specsSliceD])) hex (by decide))
      (fun _ => rfl),
    parseOptField_of_probe _ _ _ Pagination.dump c.pagination
      (probe_dump_extra_one _ _ "pagination" _ hnd
        (mem_specsD c _ (by simp [specsSliceD])) hex (by decide))
      Pagination_parse_dump]
  rfl


theorem parseSliceE_dump (c : HugoConfig)
    (hex : ∀ q ∈ c.extra, q.1 ∉ aliasNames) :
    parseSliceE (specTable (HugoConfig.specs c) ++ c.extra) =
      some ⟨c.params, c.permalinks, c.pluralizelistTitles, c.privacy, c.related, c.sectionPagesMenu, c.security, c.segments, c.server⟩ := by
  have hnd : ((HugoConfig.specs c).map Prod.fst).Nodup := by
    rw [HugoConfig_specs_names]; decide
  simp only [parseSliceE]
  rw [parseOptField_of_probe _ _ _ Value.table c.params
      (probe_dump_extra_one _ _ "params" _ hnd
        (mem_specsE c _ (by simp [specsSliceE])) hex (by decide))
      (fun _ => rfl),
    parseOptField_of_probe _ _ _ Value.table c.permalinks
      (probe_dump_extra_one _ _ "permalinks" _ hnd
        (mem_specsE c _ (by simp [specsSliceE])) hex (by decide))
      (fun _ => rfl),
    parseOptField_of_probe _ _ _ Value.bool c.pluralizelistTitles
      (probe_dump_extra_two _ _ "pluralizelistTitles" "pluralizelisttitles" _ hnd
        (mem_specsE c _ (by simp [specsSliceE]))
        (by rw [HugoConfig_specs_names]; decide) hex (by decide) (by decide))
      (fun _ => rfl),
    parseOptField_of_probe _ _ _ Value.table c.privacy
      (probe_dump_extra_one _ _ "privacy" _ hnd
        (mem_specsE c _ (by simp [specsSliceE])) hex (by decide))
      (fun _ => rfl),
    parseOptField_of_probe _ _ _ Value.table c.related
      (probe_dump_extra_one _ _ "related" _ hnd
        (mem_specsE c _ (by simp [specsSliceE])) hex (by decide))
      (fun _ => rfl),
    parseOptField_of_probe _ _ _ Value.str c.sectionPagesMenu
      (probe_dump_extra_two _ _ "sectionPagesMenu" "sectionpagesmenu" _ hnd
        (mem_specsE c _ (by simp [specsSliceE]))
        (by rw [HugoConfig_specs_names]; decide) hex (by decide) (by decide))
      (fun _ => rfl),
    parseOptField_of_probe _ _ _ Value.table c.security
      (probe_dump_extra_one _ _ "security" _ hnd
        (mem_specsE c _ (by simp [specsSliceE])) hex (by decide))
      (fun _ => rfl),
    parseOptField_of_probe _ _ _ Value.table c.segments
      (probe_dump_extra_one _ _ "segments" _ hnd
        (mem_specsE c _ (by simp [specsSliceE])) hex (by decide))
      (fun _ => rfl),
    parseOptField_of_probe _ _ _ Value.table c.server
      (probe_dump_extra_one _ _ "server" _ hnd
        (mem_specsE c _ (by simp [specsSliceE])) hex (by decide))
      (fun _ => rfl)]
  rfl


theorem parseSliceF_dump (c : HugoConfig)
    (hex : ∀ q ∈ c.extra, q.1 ∉ aliasNames) :
    parseSliceF (specTable (HugoConfig.specs c) ++ c.extra) =
      some ⟨c.services, c.sitemap, c.summaryLength, c.taxonomies, c.theme, c.timeZone, c.title, c.uglyURLs⟩ := by
  have hnd : ((HugoConfig.specs c).map Prod.fst).Nodup := by
    rw [HugoConfig_specs_names]; decide
  simp only [parseSliceF]
  rw [parseOptField_of_probe _ _ _ Value.table c.services
      (probe_dump_extra_one _ _ "services" _ hnd
        (mem_specsF c _ (by simp [specsSliceF])) hex (by decide))
      (fun _ => rfl),
    parseOptField_of_probe _ _ _ Value.table c.sitemap
      (probe_dump_extra_one _ _ "sitemap" _ hnd
        (mem_specsF c _ (by simp [specsSliceF])) hex (by decide))
      (fun _ => rfl),
    parseOptField_of_probe _ _ _ Value.int c.summaryLength
      (probe_dump_extra_two _ _ "summaryLength" "summarylength" _ hnd
        (mem_specsF c _ (by simp [specsSliceF]))
        (by rw [HugoConfig_specs_names]; decide) hex (by decide) (by decide))
      (fun _ => rfl),
    parseOptField_of_probe _ _ _ Value.table c.taxonomies
      (probe_dump_extra_one _ _ "taxonomies" _ hnd
        (mem_specsF c _ (by simp [specsSliceF])) hex (by decide))
      (fun _ => rfl),
    parseOptField_of_probe _ _ _ Value.str c.theme
      (probe_dump_extra_one _ _ "theme" _ hnd
        (mem_specsF c _ (by simp [specsSliceF])) hex (by decide))
      (fun _ => rfl),
    parseOptField_of_probe _ _ _ Value.str c.timeZone
      (probe_dump_extra_two _ _ "timeZone" "timezone" _ hnd
        (mem_specsF c _ (by simp [specsSliceF]))
        (by rw [HugoConfig_specs_names]; decide) hex (by decide) (by decide))
      (fun _ => rfl),
    parseOptField_of_probe _ _ _ Value.str c.title
      (probe_dump_extra_one _ _ "title" _ hnd
        (mem_specsF c _ (by simp [specsSliceF])) hex (by decide))
      (fun _ => rfl),
    parseOptField_of_probe _ _ _ Value.bool c.uglyURLs
      (probe_dump_extra_two _ _ "uglyURLs" "uglyurls" _ hnd
        (mem_specsF c _ (by simp [specsSliceF]))
        (by rw [HugoConfig_specs_names]; decide) hex (by decide) (by decide))
      (fun _ => rfl)]
  rfl

theorem parseUrl_inv (v : Value) (u : String) (h : parseUrl v = some u) :
    isHttpUrl u = true := by
  cases v with
  | str s =>
      simp only [parseUrl] at h
      by_cases hu : isHttpUrl s
      · rw [if_pos hu] at h
        cases Option.some.inj h
        exact hu
      · rw [if_neg hu] at h
        exact Option.noConfusion h
  | int n => exact Option.noConfusion h
  | bool b => exact Option.noConfusion h
  | arr xs => exact Option.noConfusion h
  | table t => exact Option.noConfusion h

theorem parseReqField_url_inv (t : Table) (al : List String) (u : String)
    (h : parseReqField t al parseUrl = some u) : isHttpUrl u = true := by
  unfold parseReqField at h
  cases hp : probe t al with
  | none => rw [hp] at h; exact Option.noConfusion h
  | some v => rw [hp] at h; exact parseUrl_inv v u h

/-- A successfully validated slice A carries a scheme-checked `baseURL`. -/
theorem parseSliceA_inv (t : Table) (a : ConfigSliceA)
    (h : parseSliceA t = some a) : isHttpUrl a.baseURL = true := by
  simp only [parseSliceA, Option.pure_def, Option.bind_eq_bind,
    Option.bind_eq_some] at h
  obtain ⟨f1, h1, h⟩ := h
  obtain ⟨f2, h2, h⟩ := h
  obtain ⟨f3, h3, h⟩ := h
  obtain ⟨f4, h4, h⟩ := h
  obtain ⟨f5, h5, h⟩ := h
  obtain ⟨f6, h6, h⟩ := h
  obtain ⟨f7, h7, h⟩ := h
  obtain ⟨f8, h8, h⟩ := h
  obtain ⟨f9, h9, h⟩ := h
  have hco : (⟨f1, f2, f3, f4, f5, f6, f7, f8, f9⟩ : ConfigSliceA) = a :=
    Option.some.inj h
  subst hco
  exact parseReqField_url_inv t _ f1 h1

/-- What a successful top-level validation guarantees: the stored `baseURL`
passed the URL check, and the extension bag is exactly the document's
unrecognised keys. -/
theorem HugoConfig.parseTable_inv (t : Table) (c : HugoConfig)
    (h : HugoConfig.parseTable t = some c) :
    isHttpUrl c.baseURL = true ∧ c.extra = extrasOf t := by
  simp only [HugoConfig.parseTable, Option.pure_def, Option.bind_eq_bind,
    Option.bind_eq_some] at h
  obtain ⟨a, ha, h⟩ := h
  obtain ⟨b, hb, h⟩ := h
  obtain ⟨cc, hc2, h⟩ := h
  obtain ⟨d, hd, h⟩ := h
  obtain ⟨e, he, h⟩ := h
  obtain ⟨f, hf, h⟩ := h
  have hco : assembleConfig a b cc d e f (extrasOf t) = c := Option.some.inj h
  subst hco
  exact ⟨parseSliceA_inv t a ha, rfl⟩

/-- Serializing a parsed configuration and parsing again reproduces it
exactly, for any configuration whose `baseURL` passed the URL check and
whose extension bag holds only unrecognised keys — both guaranteed by a
successful parse. -/
theorem HugoConfig_parse_dump (c : HugoConfig) (hurl : isHttpUrl c.baseURL = true)
    (hex : ∀ q ∈ c.extra, q.1 ∉ aliasNames) :
    toml_to_hugo_config (hugo_config_to_toml c) = some c := by
  rw [hugo_config_to_toml_eq c hex]
  show HugoConfig.parseTable (specTable (HugoConfig.specs c) ++ c.extra) = some c
  simp only [HugoConfig.parseTable, parseSliceA_dump c hurl hex,
    parseSliceB_dump c hex, parseSliceC_dump c hex, parseSliceD_dump c hex,
    parseSliceE_dump c hex, parseSliceF_dump c hex, extrasOf_dump c hex]
  rfl

/-- **C1.**  For every valid site-configuration document `D` (a well-formed
decoded TOML table that validates, in particular supplying `baseURL`),
parsing `D` with `toml_to_hugo_config`, serializing with
`hugo_config_to_toml` and parsing again yields a `HugoConfig` equal to the
first parse — on every modeled field and on the extension bag — and every
unrecognised top-level key of `D` is still present, with the same value, in
the round-tripped document. -/
theorem c1_roundtrip (D : Table) (c : HugoConfig)
    (h : toml_to_hugo_config D = some c) :
    toml_to_hugo_config (hugo_config_to_toml c) = some c ∧
      ∀ p ∈ D, p.1 ∉ aliasNames → p ∈ hugo_config_to_toml c := by
  obtain ⟨hurl, hextra⟩ := HugoConfig.parseTable_inv D c h
  have hex : ∀ q ∈ c.extra, q.1 ∉ aliasNames := by
    rw [hextra]
    intro q hq
    have hm := List.mem_filter.mp hq
    simpa using hm.2
  refine ⟨HugoConfig_parse_dump c hurl hex, ?_⟩
  intro p hp hal
  rw [hugo_config_to_toml_eq c hex]
  apply List.mem_append_right
  rw [hextra]
  exact List.mem_filter.mpr ⟨hp, by simpa using hal⟩

/-- A small concrete document: `baseurl` in legacy spelling, one modeled
field, one unrecognised key. -/
def cfgDocExample : Table :=
  [("baseurl", Value.str "https://example.com/"),
   ("title", Value.str "My Site"),
   ("mycustom", Value.int 7)]

/-- The configuration `cfgDocExample` parses to. -/
def cfgExample : HugoConfig :=
  ⟨"https://example.com/", none, none, none, none, none, none, none, none,
   none, none, none, none, none, none, none, none, none, none, none, none,
   none, none, none, none, none, none, none, none, none, none, none, none,
   none, none, none, none, none, none, none, none, none, none, none, none,
   none, none, none, none, none, none, some "My Site", none,
   [("mycustom", Value.int 7)]⟩

theorem c1_roundtrip_witness :
    toml_to_hugo_config cfgDocExample = some cfgExample ∧
      (toml_to_hugo_config (hugo_config_to_toml cfgExample) = some cfgExample ∧
        ∀ p ∈ cfgDocExample, p.1 ∉ aliasNames → p ∈ hugo_config_to_toml cfgExample) :=
  ⟨by rfl, c1_roundtrip cfgDocExample cfgExample (by rfl)⟩

/-! ## Theme metadata (themes/config.py)

`Author`, `OriginalAuthor` and `ThemeMetadata` are pydantic v2 models.
Note that in pydantic v2 an annotation `HttpUrl | None` **without** a
declared default makes the field required (it may hold an explicit null,
which TOML cannot express) — only fields written `= None` (or another
default) in the source may be omitted from a document. -/

structure Author where
  name : String
  homepage : Option String

/-- Validation of an `Author` record (themes/config.py lines 35-37):
`name: str` and `homepage: HttpUrl | None` — the latter has no default, so
the key must be present; from TOML it can only be a URL string. -/
def Author.parse : Value → Option Author
  | .table t => do
      let n ← parseReqField t ["name"] parseStr
      let h ← parseReqField t ["homepage"] parseUrl
      pure ⟨n, some h⟩
  | _ => none

structure OriginalAuthor where
  author : String
  homepage : Option String
  repo : Option String

/-- Validation of an `OriginalAuthor` record (themes/config.py lines 40-43):
`author: str`, `homepage: HttpUrl | None`, `repo: HttpUrl | None`, none of
them defaulted, hence all three keys required. -/
def OriginalAuthor.parse : Value → Option OriginalAuthor
  | .table t => do
      let a ← parseReqField t ["author"] parseStr
      let h ← parseReqField t ["homepage"] parseUrl
      let r ← parseReqField t ["repo"] parseUrl
      pure ⟨a, some h, some r⟩
  | _ => none

/-- A `list[Author]` field. -/
def parseAuthorList : Value → Option (List Author)
  | .arr xs => parseItems Author.parse xs
  | _ => none

/-- Pixel dimensions of an image file, as read by `PIL.Image.open(...).size`. -/
structure ImageFile where
  width : Nat
  height : Nat

/-- The payload of each geometry `ValueError` mirrors exactly what the
corresponding Python message interpolates: the extension message carries no
measurements, the minimum-size message carries `width`/`height`, the
aspect-ratio message carries only the computed `ratio = width / height`
(formatted `.2f`), not the dimensions. -/
inductive GeoErr where
  | badExt
  | tooSmall (width height : Nat)
  | wrongAspect (r : ℚ)

/-- Does the error message report the measured pixel dimensions?  Only the
minimum-size message interpolates `width`/`height`. -/
def geoErrReportsDims : GeoErr → Bool
  | .tooSmall _ _ => true
  | _ => false

def allowedImgExts : List String := [".png", ".jpg", ".jpeg"]

/-- The mantissa of `width / height` rounded to IEEE-754 binary64, for
quotients in `[1.4, 1.6]` (where the exponent is fixed and the rounded
quotient is `floatMantissa width height / 2^52`): take
`m = (width * 2^52) / height` with remainder `r`, then round the fraction
`r / height` to nearest, ties to even — exactly Python's correctly rounded
float division. -/
def floatMantissa (w h : Nat) : Nat :=
  if h < 2 * (w * 4503599627370496 % h) then w * 4503599627370496 / h + 1
  else if 2 * (w * 4503599627370496 % h) < h then w * 4503599627370496 / h
  else if w * 4503599627370496 / h % 2 = 1 then w * 4503599627370496 / h + 1
  else w * 4503599627370496 / h

/-- The aspect test `abs(width / height - 1.5) > 0.01` exactly as Python
evaluates it in IEEE-754 binary64 arithmetic:

* `width / height` is the true quotient correctly rounded (nearest, ties to
  even); the literal `0.01` denotes the double `5764607523034235 / 2^59`
  (about `1/100 + 2.1e-19`); `1.5 = 3 * 2^51 / 2^52` is exact;
* for quotients in `[1.4, 1.6]` (the `else` branch) the rounded quotient is
  `floatMantissa w h / 2^52` with `2^52 < m < 2^53`; the subtraction of
  `1.5` is then exact (the difference is `k / 2^52` with `|k| < 2^50`, hence
  representable), `abs` is exact, and comparing against
  `5764607523034235 / 2^59` clears denominators to
  `5764607523034235 < 128 * |m - 3 * 2^51|`;
* for quotients below `1.4` or above `1.6` the computed
  `abs(fl(fl(w/h) - 1.5))` is at least `(0.1 - 2^-52) * (1 - 2^-53)`,
  whatever the two roundings do (including quotients that overflow to
  infinity), which is far above the threshold, so the test is `true` with
  no further computation.  (`height = 0` — a `ZeroDivisionError` in Python —
  is unreachable: the minimum-dimension gate runs first.)
-/
def floatAspectExceeds (w h : Nat) : Bool :=
  if 10 * w < 14 * h ∨ 16 * h < 10 * w then true
  else
    decide (5764607523034235 <
      128 * (max (floatMantissa w h) 6755399441055744
        - min (floatMantissa w h) 6755399441055744))

/-- `ThemeMetadata.check_screenshot_image` (themes/config.py lines 71-102):
extension whitelist, minimum 1500×1000, then the double-precision aspect
test `abs(width/height - 1.5) > 0.01` (see `floatAspectExceeds`).  The
error payload carries the quotient exactly; the Python message formats the
float quotient to two decimals. -/
def check_screenshot_image (ext : String) (width height : Nat) : Except GeoErr Unit :=
  if ¬ (ext ∈ allowedImgExts) then .error .badExt
  else if width < 1500 ∨ height < 1000 then .error (.tooSmall width height)
  else if floatAspectExceeds width height then
    .error (.wrongAspect ((width : ℚ) / (height : ℚ)))
  else .ok ()

/-- `ThemeMetadata.check_thumbnail_image` (themes/config.py lines 104-135):
as the screenshot check with minimum 900×600. -/
def check_thumbnail_image (ext : String) (width height : Nat) : Except GeoErr Unit :=
  if ¬ (ext ∈ allowedImgExts) then .error .badExt
  else if width < 900 ∨ height < 600 then .error (.tooSmall width height)
  else if floatAspectExceeds width height then
    .error (.wrongAspect ((width : ℚ) / (height : ℚ)))
  else .ok ()

/-- `ThemeMetadata.validate_author_fields` (themes/config.py lines 137-150):
`if author and authors: raise`.  Python truthiness: a present `author`
record is truthy; a present `authors` **list** is truthy only when
non-empty. -/
def validate_author_fields (au : Option Author) (aus : Option (List Author)) : Bool :=
  !((au.isSome) && (match aus with | none => false | some l => !l.isEmpty))

/-- An image resolved by `load_theme_metadata`: its conventional filename,
its extension (`Path.suffix`), and the opened image. -/
structure ResolvedImage where
  fname : String
  ext : String
  image : ImageFile

structure ThemeMetadata where
  name : String
  license : String
  licenselink : Option String
  description : String
  homepage : String
  demosite : Option String
  tags : Option (List String)
  features : Option (List String)
  author : Option Author
  authors : Option (List Author)
  original : Option OriginalAuthor
  screenshot : ResolvedImage
  thumbnail : ResolvedImage
  theme_dir : String

/-- `ThemeMetadata.model_validate` (themes/config.py lines 46-150) on a
decoded descriptor table, with the resolved `screenshot`/`thumbnail` and the
derived `theme_dir` already injected into the data (as `load_theme_metadata`
does).  `none` is pydantic's `ValidationError`: a missing or ill-typed
field, a failing image geometry validator, or the authorship-exclusivity
model validator.  (`tags`/`features` default to `[]` in the source; `none`
here stands for "key absent", under which the distinction is untouched by
any claim.) -/
def ThemeMetadata.parse (t : Table) (sc tn : ResolvedImage) (dir : String) :
    Option ThemeMetadata := do
  let n ← parseReqField t ["name"] parseStr
  let lic ← parseReqField t ["license"] parseStr
  let liclink ← parseOptField t ["licenselink"] parseUrl
  let desc ← parseReqField t ["description"] parseStr
  let hp ← parseReqField t ["homepage"] parseUrl
  let demo ← parseOptField t ["demosite"] parseUrl
  let tg ← parseOptField t ["tags"] parseStrList
  let ft ← parseOptField t ["features"] parseStrList
  let au ← parseOptField t ["author"] Author.parse
  let aus ← parseOptField t ["authors"] parseAuthorList
  let orig ← parseOptField t ["original"] OriginalAuthor.parse
  match check_screenshot_image sc.ext sc.image.width sc.image.height with
  | .error _ => none
  | .ok _ =>
    match check_thumbnail_image tn.ext tn.image.width tn.image.height with
    | .error _ => none
    | .ok _ =>
      if validate_author_fields au aus then
        some ⟨n, lic, liclink, desc, hp, demo, tg, ft, au, aus, orig, sc, tn, dir⟩
      else
        none

/-- The directory context `load_theme_metadata` inspects: whether the
`images/` subdirectory exists beside the descriptor, and which of the four
conventional image files exist (with their pixel sizes). -/
structure ThemeDir where
  hasImagesDir : Bool
  screenshotPng : Option ImageFile
  screenshotJpg : Option ImageFile
  tnPng : Option ImageFile
  tnJpg : Option ImageFile

/-- Failures of `load_theme_metadata`: `FileNotFoundError` for the missing
`images/` directory, `FileNotFoundError` naming the two expected filenames
for a missing image, and pydantic's `ValidationError` from model
validation.  (The upstream `theme.toml not found` / TOML `DecodeError`
stages act before any input modelled here.) -/
inductive ThemeLoadErr where
  | imagesDirNotFound
  | imageNotFound (expected1 expected2 : String)
  | validationError

/-- Screenshot resolution (themes/config.py lines 183-192): error when
neither variant exists, otherwise png preferred over jpg. -/
def resolveScreenshot (d : ThemeDir) : Except ThemeLoadErr ResolvedImage :=
  match d.screenshotPng with
  | some img => .ok ⟨"screenshot.png", ".png", img⟩
  | none =>
    match d.screenshotJpg with
    | some img => .ok ⟨"screenshot.jpg", ".jpg", img⟩
    | none => .error (.imageNotFound "screenshot.png" "screenshot.jpg")

/-- Thumbnail resolution (themes/config.py lines 194-203). -/
def resolveThumbnail (d : ThemeDir) : Except ThemeLoadErr ResolvedImage :=
  match d.tnPng with
  | some img => .ok ⟨"tn.png", ".png", img⟩
  | none =>
    match d.tnJpg with
    | some img => .ok ⟨"tn.jpg", ".jpg", img⟩
    | none => .error (.imageNotFound "tn.png" "tn.jpg")

/-- `load_theme_metadata` (themes/config.py lines 153-206) from the point
the descriptor is decoded: set `theme_dir`, require `images/`, resolve
screenshot and thumbnail by convention, then validate the model. -/
def load_theme_metadata (d : ThemeDir) (data : Table) (dirPath : String) :
    Except ThemeLoadErr ThemeMetadata :=
  if d.hasImagesDir = false then .error .imagesDirNotFound
  else
    match resolveScreenshot d with
    | .error e => .error e
    | .ok sc =>
      match resolveThumbnail d with
      | .error e => .error e
      | .ok tn =>
        match ThemeMetadata.parse data sc tn dirPath with
        | none => .error .validationError
        | some m => .ok m

/-! ### C4, C5, C7 -/

/-- **C4.**  The claim says an authorship record is "a name plus an
*optional* homepage URL", so `author = { name = "Alice" }` should load, and
an `original` record should be able to omit `homepage`/`repo`.  The code
disagrees: pydantic v2 gives no implicit `None` default, so `Author.homepage`
and `OriginalAuthor.homepage`/`repo` are required keys and the name-only
records fail validation, while supplying the URLs succeeds.  (Every other
optional field in the same file spells out `= None`; the two author records
are the only ones that omit it, against the documented theme.toml format —
the code, not the claim, is the slip.) -/
theorem c4_author_homepage_required :
    Author.parse (Value.table [("name", Value.str "Alice")]) = none ∧
    OriginalAuthor.parse (Value.table [("author", Value.str "Alice")]) = none ∧
    Author.parse (Value.table
        [("name", Value.str "Alice"),
         ("homepage", Value.str "http://alice.example/")]) =
      some ⟨"Alice", some "http://alice.example/"⟩ :=
  ⟨rfl, rfl, rfl⟩

/-- An on-disk theme directory with conforming images. -/
def exampleThemeDir : ThemeDir :=
  ⟨true, some ⟨1500, 1000⟩, none, some ⟨900, 600⟩, none⟩

def authorAlice : Author := ⟨"Alice", some "http://alice.example/"⟩

/-- A descriptor declaring **both** `author` and `authors`, the list empty. -/
def descBothAuthorsEmpty : Table :=
  [("name", Value.str "T"), ("license", Value.str "MIT"),
   ("description", Value.str "D"), ("homepage", Value.str "http://t.example/"),
   ("author", Value.table
      [("name", Value.str "Alice"), ("homepage", Value.str "http://alice.example/")]),
   ("authors", Value.arr [])]

def metaBothAuthorsEmpty : ThemeMetadata :=
  ⟨"T", "MIT", none, "D", "http://t.example/", none, none, none,
   some authorAlice, some [], none,
   ⟨"screenshot.png", ".png", ⟨1500, 1000⟩⟩, ⟨"tn.png", ".png", ⟨900, 600⟩⟩,
   "themes/t"⟩

/-- **C5, counterexample.**  A descriptor declaring both `author` and
`authors` (the latter as the empty list) loads *successfully*: Python
truthiness in `if author and authors:` treats an empty list as absent, so
the claim "declaring both makes loading fail with a ValidationError" is
false as stated. -/
theorem c5_counterexample_empty_authors :
    load_theme_metadata exampleThemeDir descBothAuthorsEmpty "themes/t" =
      .ok metaBothAuthorsEmpty := rfl

/-- A descriptor declaring neither `author` nor `authors`. -/
def descNoAuthors : Table :=
  [("name", Value.str "T"), ("license", Value.str "MIT"),
   ("description", Value.str "D"), ("homepage", Value.str "http://t.example/")]

def metaNoAuthors : ThemeMetadata :=
  ⟨"T", "MIT", none, "D", "http://t.example/", none, none, none,
   none, none, none,
   ⟨"screenshot.png", ".png", ⟨1500, 1000⟩⟩, ⟨"tn.png", ".png", ⟨900, 600⟩⟩,
   "themes/t"⟩

set_option maxHeartbeats 1600000 in
/-- **C5, amended.**  Declaring both `author` and a **non-empty** `authors`
fails validation (pydantic `ValidationError`); an empty `authors` list
counts as not declared (Python truthiness); declaring neither is allowed:
(1) every successfully validated descriptor satisfies the authorship
validator, (2) the validator rejects exactly the truthy-both case,
(3) it accepts the neither case, and (4) a concrete neither-descriptor
loads. -/
theorem c5_amended_author_exclusivity :
    (∀ (t : Table) (sc tn : ResolvedImage) (dir : String) (m : ThemeMetadata),
        ThemeMetadata.parse t sc tn dir = some m →
          validate_author_fields m.author m.authors = true) ∧
    (∀ (a : Author) (l : List Author), l ≠ [] →
        validate_author_fields (some a) (some l) = false) ∧
    validate_author_fields none none = true ∧
    load_theme_metadata exampleThemeDir descNoAuthors "themes/t" =
      .ok metaNoAuthors := by
  refine ⟨?_, ?_, rfl, rfl⟩
  · intro t sc tn dir m h
    simp only [ThemeMetadata.parse, Option.pure_def, Option.bind_eq_bind,
      Option.bind_eq_some] at h
    obtain ⟨n, hn, h⟩ := h
    obtain ⟨lic, hlic, h⟩ := h
    obtain ⟨liclink, hliclink, h⟩ := h
    obtain ⟨desc, hdesc, h⟩ := h
    obtain ⟨hp, hhp, h⟩ := h
    obtain ⟨demo, hdemo, h⟩ := h
    obtain ⟨tg, htg, h⟩ := h
    obtain ⟨ft, hft, h⟩ := h
    obtain ⟨au, hau, h⟩ := h
    obtain ⟨aus, haus, h⟩ := h
    obtain ⟨orig, horig, h⟩ := h
    cases hsc : check_screenshot_image sc.ext sc.image.width sc.image.height with
    | error e => rw [hsc] at h; exact Option.noConfusion h
    | ok u =>
      rw [hsc] at h
      cases htn : check_thumbnail_image tn.ext tn.image.width tn.image.height with
      | error e => rw [htn] at h; exact Option.noConfusion h
      | ok u2 =>
        rw [htn] at h
        by_cases hv : validate_author_fields au aus
        · rw [if_pos hv] at h
          have hm := Option.some.inj h
          subst hm
          exact hv
        · rw [if_neg hv] at h
          exact Option.noConfusion h
  · intro a l hl
    cases l with
    | nil => exact absurd rfl hl
    | cons x xs => rfl

set_option maxHeartbeats 1600000 in
theorem c5_amended_witness :
    validate_author_fields metaNoAuthors.author metaNoAuthors.authors = true ∧
    validate_author_fields (some authorAlice) [authorAlice] = false :=
  ⟨c5_amended_author_exclusivity.1 descNoAuthors
      ⟨"screenshot.png", ".png", ⟨1500, 1000⟩⟩ ⟨"tn.png", ".png", ⟨900, 600⟩⟩
      "themes/t" metaNoAuthors rfl,
   c5_amended_author_exclusivity.2.1 authorAlice [authorAlice] (by simp)⟩

/-- **C7.**  Image resolution convention: `screenshot.{png,jpg}` /
`tn.{png,jpg}` in the `images/` directory, png preferred when both exist,
and a `FileNotFoundError` naming both expected filenames when neither
exists — also as surfaced through `load_theme_metadata`. -/
theorem c7_image_resolution :
    (∀ (d : ThemeDir) (i : ImageFile), d.screenshotPng = some i →
        resolveScreenshot d = .ok ⟨"screenshot.png", ".png", i⟩) ∧
    (∀ (d : ThemeDir) (i : ImageFile), d.screenshotPng = none →
        d.screenshotJpg = some i →
        resolveScreenshot d = .ok ⟨"screenshot.jpg", ".jpg", i⟩) ∧
    (∀ d : ThemeDir, d.screenshotPng = none → d.screenshotJpg = none →
        resolveScreenshot d = .error (.imageNotFound "screenshot.png" "screenshot.jpg")) ∧
    (∀ (d : ThemeDir) (i : ImageFile), d.tnPng = some i →
        resolveThumbnail d = .ok ⟨"tn.png", ".png", i⟩) ∧
    (∀ (d : ThemeDir) (i : ImageFile), d.tnPng = none → d.tnJpg = some i →
        resolveThumbnail d = .ok ⟨"tn.jpg", ".jpg", i⟩) ∧
    (∀ d : ThemeDir, d.tnPng = none → d.tnJpg = none →
        resolveThumbnail d = .error (.imageNotFound "tn.png" "tn.jpg")) ∧
    (∀ (d : ThemeDir) (data : Table) (dir : String), d.hasImagesDir = true →
        d.screenshotPng = none → d.screenshotJpg = none →
        load_theme_metadata d data dir =
          .error (.imageNotFound "screenshot.png" "screenshot.jpg")) ∧
    (∀ (d : ThemeDir) (data : Table) (dir : String) (i : ImageFile),
        d.hasImagesDir = true → d.screenshotPng = some i →
        d.tnPng = none → d.tnJpg = none →
        load_theme_metadata d data dir = .error (.imageNotFound "tn.png" "tn.jpg")) := by
  refine ⟨?_, ?_, ?_, ?_, ?_, ?_, ?_, ?_⟩
  · intro d i h1
    simp [resolveScreenshot, h1]
  · intro d i h1 h2
    simp [resolveScreenshot, h1, h2]
  · intro d h1 h2
    simp [resolveScreenshot, h1, h2]
  · intro d i h1
    simp [resolveThumbnail, h1]
  · intro d i h1 h2
    simp [resolveThumbnail, h1, h2]
  · intro d h1 h2
    simp [resolveThumbnail, h1, h2]
  · intro d data dir hdir h1 h2
    simp [load_theme_metadata, hdir, resolveScreenshot, h1, h2]
  · intro d data dir i hdir h1 h2 h3
    simp [load_theme_metadata, hdir, resolveScreenshot, resolveThumbnail, h1, h2, h3]

/-- Both variants of each image present: png must win. -/
def dirBothVariants : ThemeDir :=
  ⟨true, some ⟨1500, 1000⟩, some ⟨1499, 999⟩, some ⟨900, 600⟩, some ⟨899, 599⟩⟩

/-- Thumbnail variants both missing. -/
def dirNoThumb : ThemeDir := ⟨true, some ⟨1500, 1000⟩, none, none, none⟩

theorem c7_image_resolution_witness :
    resolveScreenshot dirBothVariants = .ok ⟨"screenshot.png", ".png", ⟨1500, 1000⟩⟩ ∧
    resolveThumbnail dirBothVariants = .ok ⟨"tn.png", ".png", ⟨900, 600⟩⟩ ∧
    load_theme_metadata dirNoThumb [] "d" = .error (.imageNotFound "tn.png" "tn.jpg") :=
  ⟨c7_image_resolution.1 dirBothVariants ⟨1500, 1000⟩ rfl,
   c7_image_resolution.2.2.2.1 dirBothVariants ⟨900, 600⟩ rfl,
   c7_image_resolution.2.2.2.2.2.2.2 dirNoThumb [] "d" ⟨1500, 1000⟩ rfl rfl rfl rfl⟩

/-! ### C6 -/

theorem natDist_cast (a b : Nat) :
    ((max a b - min a b : Nat) : ℚ) = |(a : ℚ) - (b : ℚ)| := by
  rcases le_total a b with h | h
  · rw [max_eq_right h, min_eq_left h, Nat.cast_sub h, abs_sub_comm,
      abs_of_nonneg (sub_nonneg.mpr (by exact_mod_cast h))]
  · rw [max_eq_left h, min_eq_right h, Nat.cast_sub h,
      abs_of_nonneg (sub_nonneg.mpr (by exact_mod_cast h))]

/-- Round-to-nearest (ties to even) is within half a unit:
`floatMantissa w h` differs from the scaled true quotient
`w * 2^52 / h` by at most `1/2`. -/
theorem floatMantissa_close (w h : Nat) (hh : 0 < h) :
    |((floatMantissa w h : ℚ)) - ((w : ℚ) * 4503599627370496) / (h : ℚ)| ≤ 1/2 := by
  have hq : (0 : ℚ) < h := by exact_mod_cast hh
  have hr : w * 4503599627370496 % h < h := Nat.mod_lt _ hh
  have h0 : (w * 4503599627370496 / h) * h + w * 4503599627370496 % h
      = w * 4503599627370496 := Nat.div_add_mod' _ _
  have hdm : ((w * 4503599627370496 / h : Nat) : ℚ) * (h : ℚ)
      + ((w * 4503599627370496 % h : Nat) : ℚ) = (w : ℚ) * 4503599627370496 := by
    exact_mod_cast h0
  have hxq : ((w : ℚ) * 4503599627370496) / h
      = ((w * 4503599627370496 / h : Nat) : ℚ)
        + ((w * 4503599627370496 % h : Nat) : ℚ) / h := by
    field_simp
    linarith [hdm]
  rw [hxq]
  unfold floatMantissa
  set m : Nat := w * 4503599627370496 / h
  set r : Nat := w * 4503599627370496 % h
  have hrh0 : (0 : ℚ) ≤ (r : ℚ) / h := div_nonneg (by positivity) (le_of_lt hq)
  have hrh1 : (r : ℚ) / h < 1 := (div_lt_one hq).mpr (by exact_mod_cast hr)
  by_cases h1 : h < 2 * r
  · rw [if_pos h1]
    have hge : 1/2 ≤ (r : ℚ) / h := by
      rw [le_div_iff hq]
      have : (h : ℚ) ≤ 2 * r := by exact_mod_cast le_of_lt h1
      linarith
    have heq : ((m + 1 : Nat) : ℚ) - ((m : ℚ) + (r : ℚ) / h) = 1 - (r : ℚ) / h := by
      push_cast
      ring
    rw [heq, abs_of_nonneg (by linarith)]
    linarith
  · rw [if_neg h1]
    by_cases h2 : 2 * r < h
    · rw [if_pos h2]
      have hle : (r : ℚ) / h ≤ 1/2 := by
        rw [div_le_iff hq]
        have : (2 : ℚ) * r ≤ h := by exact_mod_cast le_of_lt h2
        linarith
      have heq : ((m : Nat) : ℚ) - ((m : ℚ) + (r : ℚ) / h) = -((r : ℚ) / h) := by
        ring
      rw [heq, abs_neg, abs_of_nonneg hrh0]
      linarith
    · rw [if_neg h2]
      have hteq : 2 * r = h := by omega
      have h2q : ((2 : ℚ)) * r = h := by exact_mod_cast hteq
      have hhalf : (r : ℚ) / h = 1/2 := by
        rw [div_eq_iff (ne_of_gt hq)]
        linarith
      by_cases h3 : m % 2 = 1
      · rw [if_pos h3]
        have heq : ((m + 1 : Nat) : ℚ) - ((m : ℚ) + (r : ℚ) / h)
            = 1 - (r : ℚ) / h := by
          push_cast
          ring
        rw [heq, hhalf, abs_of_nonneg (by norm_num)]
        norm_num
      · rw [if_neg h3]
        have heq : ((m : Nat) : ℚ) - ((m : ℚ) + (r : ℚ) / h) = -((r : ℚ) / h) := by
          ring
        rw [heq, hhalf, abs_neg, abs_of_nonneg (by norm_num)]

/-- The rounded quotient `floatMantissa w h / 2^52` is within `2^-53` of the
true quotient `w / h`. -/
theorem floatMantissa_approx (w h : Nat) (hh : 0 < h) :
    |((floatMantissa w h : ℚ)) / 4503599627370496 - (w : ℚ) / h|
      ≤ 1 / 9007199254740992 := by
  have hq : (0 : ℚ) < h := by exact_mod_cast hh
  have key := floatMantissa_close w h hh
  have hrw : ((floatMantissa w h : ℚ)) / 4503599627370496 - (w : ℚ) / h
      = (((floatMantissa w h : ℚ)) - ((w : ℚ) * 4503599627370496) / h)
        / 4503599627370496 := by
    field_simp
    ring
  rw [hrw, abs_div, abs_of_pos (by norm_num : (0:ℚ) < 4503599627370496)]
  rw [div_le_div_iff (by norm_num) (by norm_num)]
  linarith

/-- An input the double-precision aspect test accepts has its exact ratio
within `1/100 + 2^-52` of `3/2`. -/
theorem floatAspect_false_close (w h : Nat) (hh : 0 < h)
    (hacc : floatAspectExceeds w h = false) :
    |(w : ℚ) / (h : ℚ) - 3/2| ≤ 1/100 + 1/4503599627370496 := by
  unfold floatAspectExceeds at hacc
  by_cases hb : 10 * w < 14 * h ∨ 16 * h < 10 * w
  · rw [if_pos hb] at hacc
    exact Bool.noConfusion hacc
  · rw [if_neg hb] at hacc
    have hC : 128 * (max (floatMantissa w h) 6755399441055744
        - min (floatMantissa w h) 6755399441055744) ≤ 5764607523034235 := by
      have := of_decide_eq_false hacc
      omega
    have hCq : 128 * |((floatMantissa w h : ℚ)) - ((6755399441055744 : Nat) : ℚ)|
        ≤ 5764607523034235 := by
      rw [← natDist_cast]
      exact_mod_cast hC
    push_cast at hCq
    have happ := floatMantissa_approx w h hh
    have hmid : |((floatMantissa w h : ℚ)) / 4503599627370496 - 3/2|
        ≤ 5764607523034235 / 576460752303423488 := by
      have hrw : ((floatMantissa w h : ℚ)) / 4503599627370496 - 3/2
          = (((floatMantissa w h : ℚ)) - 6755399441055744) / 4503599627370496 := by
        field_simp
        ring
      rw [hrw, abs_div, abs_of_pos (by norm_num : (0:ℚ) < 4503599627370496)]
      rw [div_le_div_iff (by norm_num) (by norm_num)]
      linarith
    calc |(w : ℚ) / h - 3/2|
        ≤ |(w : ℚ) / h - ((floatMantissa w h : ℚ)) / 4503599627370496|
          + |((floatMantissa w h : ℚ)) / 4503599627370496 - 3/2| :=
          abs_sub_le _ _ _
      _ ≤ 1 / 9007199254740992 + 5764607523034235 / 576460752303423488 := by
          rw [abs_sub_comm]
          exact add_le_add happ hmid
      _ ≤ 1/100 + 1/4503599627370496 := by norm_num

/-- An input whose exact ratio is within `1/100 - 2^-52` of `3/2` is
accepted by the double-precision aspect test. -/
theorem floatAspect_close_false (w h : Nat) (hh : 0 < h)
    (hcl : |(w : ℚ) / (h : ℚ) - 3/2| ≤ 1/100 - 1/4503599627370496) :
    floatAspectExceeds w h = false := by
  have hq : (0 : ℚ) < h := by exact_mod_cast hh
  obtain ⟨hlo, hhi⟩ := abs_le.mp hcl
  have hlow : (7 : ℚ) * h < 5 * w := by
    have h1 : (7 : ℚ) / 5 < (w : ℚ) / h := by
      have : (7 : ℚ) / 5 < 3/2 - (1/100 - 1/4503599627370496) := by norm_num
      linarith
    rw [div_lt_div_iff (by norm_num) hq] at h1
    linarith
  have hhigh : (5 : ℚ) * w < 8 * h := by
    have h1 : (w : ℚ) / h < (8 : ℚ) / 5 := by
      have : 3/2 + (1/100 - 1/4503599627370496) < (8 : ℚ) / 5 := by norm_num
      linarith
    rw [div_lt_div_iff hq (by norm_num)] at h1
    linarith
  have hb : ¬(10 * w < 14 * h ∨ 16 * h < 10 * w) := by
    have hlowN : 7 * h < 5 * w := by exact_mod_cast hlow
    have hhighN : 5 * w < 8 * h := by exact_mod_cast hhigh
    omega
  unfold floatAspectExceeds
  rw [if_neg hb]
  simp only [decide_eq_false_iff_not]
  intro hgt
  have hup : (5764607523034235 : ℚ)
      < 128 * |((floatMantissa w h : ℚ)) - ((6755399441055744 : Nat) : ℚ)| := by
    rw [← natDist_cast]
    exact_mod_cast hgt
  push_cast at hup
  have happ := floatMantissa_approx w h hh
  have t1 : |((floatMantissa w h : ℚ)) - 4503599627370496 * ((w : ℚ) / h)|
      ≤ 1/2 := by
    have hrw : ((floatMantissa w h : ℚ)) - 4503599627370496 * ((w : ℚ) / h)
        = 4503599627370496
          * (((floatMantissa w h : ℚ)) / 4503599627370496 - (w : ℚ) / h) := by
      field_simp
      ring
    rw [hrw, abs_mul, abs_of_pos (by norm_num : (0:ℚ) < 4503599627370496)]
    nlinarith [happ]
  have t2 : |4503599627370496 * ((w : ℚ) / h) - 6755399441055744|
      ≤ 4503599627370496 * (1/100 - 1/4503599627370496) := by
    have hrw : (4503599627370496 : ℚ) * ((w : ℚ) / h) - 6755399441055744
        = 4503599627370496 * ((w : ℚ) / h - 3/2) := by ring
    rw [hrw, abs_mul, abs_of_pos (by norm_num : (0:ℚ) < 4503599627370496)]
    nlinarith [hcl]
  have t3 : |((floatMantissa w h : ℚ)) - 6755399441055744|
      ≤ 1/2 + 4503599627370496 * (1/100 - 1/4503599627370496) :=
    calc |((floatMantissa w h : ℚ)) - 6755399441055744|
        ≤ |((floatMantissa w h : ℚ)) - 4503599627370496 * ((w : ℚ) / h)|
          + |4503599627370496 * ((w : ℚ) / h) - 6755399441055744| :=
          abs_sub_le _ _ _
      _ ≤ 1/2 + 4503599627370496 * (1/100 - 1/4503599627370496) :=
          add_le_add t1 t2
  nlinarith [hup, t3]

/-- Ratios exactly `1.51` or `1.49` — the claim's tolerance boundary — are
**rejected** by the double-precision test: the rounded quotient differs from
`1.5` by `45035996273705 / 2^52 ≈ 0.010000000000000009`, which exceeds the
double `0.01 = 5764607523034235 / 2^59`. -/
theorem floatAspect_boundary (w h : Nat) (hh : 0 < h)
    (hb : 100 * w = 151 * h ∨ 100 * w = 149 * h) :
    floatAspectExceeds w h = true := by
  obtain hb | hb := hb
  · have hdvd : 100 ∣ h := by omega
    obtain ⟨t, ht⟩ := hdvd
    have hw : w = 151 * t := by omega
    have ht0 : 0 < t := by omega
    subst ht hw
    unfold floatAspectExceeds
    rw [if_neg (by omega)]
    have hm : floatMantissa (151 * t) (100 * t) = 6800435437329449 := by
      unfold floatMantissa
      have hnum : 151 * t * 4503599627370496 = 680043543732944896 * t := by ring
      have hden : 100 * t = 100 * t := rfl
      rw [hnum]
      rw [show (100 : Nat) * t = t * 100 from Nat.mul_comm 100 t,
        show (680043543732944896 : Nat) * t = t * 680043543732944896 from
          Nat.mul_comm _ t]
      rw [Nat.mul_div_mul_left _ _ ht0, Nat.mul_mod_mul_left]
      have hdiv : 680043543732944896 / 100 = 6800435437329448 := by norm_num
      have hmod : 680043543732944896 % 100 = 96 := by norm_num
      rw [hdiv, hmod]
      rw [if_pos (by omega)]
    rw [hm]
    rfl
  · have hdvd : 100 ∣ h := by omega
    obtain ⟨t, ht⟩ := hdvd
    have hw : w = 149 * t := by omega
    have ht0 : 0 < t := by omega
    subst ht hw
    unfold floatAspectExceeds
    rw [if_neg (by omega)]
    have hm : floatMantissa (149 * t) (100 * t) = 6710363444782039 := by
      unfold floatMantissa
      have hnum : 149 * t * 4503599627370496 = 671036344478203904 * t := by ring
      rw [hnum]
      rw [show (100 : Nat) * t = t * 100 from Nat.mul_comm 100 t,
        show (671036344478203904 : Nat) * t = t * 671036344478203904 from
          Nat.mul_comm _ t]
      rw [Nat.mul_div_mul_left _ _ ht0, Nat.mul_mod_mul_left]
      have hdiv : 671036344478203904 / 100 = 6710363444782039 := by norm_num
      have hmod : 671036344478203904 % 100 = 4 := by norm_num
      rw [hdiv, hmod]
      rw [if_neg (by omega), if_pos (by omega)]
    rw [hm]
    rfl

/-- **C6, counterexample.**  A 1500×1100 screenshot passes the minimum-size
gate but violates the ratio tolerance; the raised error carries only the
computed ratio (the Python message interpolates `ratio:.2f`), not the
measured dimensions — refuting "any violation raises a ValidationError
reporting the measured dimensions". -/
theorem c6_counterexample_ratio_error :
    check_screenshot_image ".png" 1500 1100 =
      .error (.wrongAspect (((1500 : Nat) : ℚ) / ((1100 : Nat) : ℚ))) ∧
    geoErrReportsDims (.wrongAspect (((1500 : Nat) : ℚ) / ((1100 : Nat) : ℚ))) = false :=
  ⟨rfl, rfl⟩

/-- **C6, amended.**  Geometry validation accepts an image exactly when the
minimums hold (1500×1000 screenshot, 900×600 thumbnail) and the
double-precision test `abs(width/height - 1.5) > 0.01` does not flag it.
In exact terms that test brackets the claimed tolerance: ratios within
`1/100 - 2^-52` of `3/2` are accepted, accepted ratios are within
`1/100 + 2^-52` of `3/2`, but the exact boundary ratios `1.51`/`1.49` are
rejected (float rounding tips them just over the double `0.01`, e.g. for a
1510×1000 screenshot or a 906×600 thumbnail).  Minimum-size violations
report the measured dimensions; ratio violations report the computed ratio
instead.  The claim's concrete examples behave as stated. -/
theorem c6_amended_geometry :
    (∀ w h : Nat, check_screenshot_image ".png" w h = .ok () ↔
        (1500 ≤ w ∧ 1000 ≤ h ∧ floatAspectExceeds w h = false)) ∧
    (∀ w h : Nat, check_thumbnail_image ".png" w h = .ok () ↔
        (900 ≤ w ∧ 600 ≤ h ∧ floatAspectExceeds w h = false)) ∧
    (∀ w h : Nat, 0 < h → floatAspectExceeds w h = false →
        |(w : ℚ) / (h : ℚ) - 3/2| ≤ 1/100 + 1/4503599627370496) ∧
    (∀ w h : Nat, 0 < h →
        |(w : ℚ) / (h : ℚ) - 3/2| ≤ 1/100 - 1/4503599627370496 →
        floatAspectExceeds w h = false) ∧
    (∀ w h : Nat, 0 < h → (100 * w = 151 * h ∨ 100 * w = 149 * h) →
        floatAspectExceeds w h = true) ∧
    (∀ w h : Nat, geoErrReportsDims (.tooSmall w h) = true) ∧
    check_screenshot_image ".png" 1000 800 = .error (.tooSmall 1000 800) ∧
    check_thumbnail_image ".png" 800 600 = .error (.tooSmall 800 600) ∧
    check_screenshot_image ".png" 1500 1000 = .ok () ∧
    check_thumbnail_image ".png" 900 600 = .ok () ∧
    check_screenshot_image ".png" 1510 1000 =
      .error (.wrongAspect (((1510 : Nat) : ℚ) / ((1000 : Nat) : ℚ))) ∧
    check_thumbnail_image ".png" 906 600 =
      .error (.wrongAspect (((906 : Nat) : ℚ) / ((600 : Nat) : ℚ))) := by
  refine ⟨?_, ?_, floatAspect_false_close, floatAspect_close_false,
    floatAspect_boundary, fun w h => rfl, rfl, rfl, rfl, rfl, rfl, rfl⟩
  · intro w h
    unfold check_screenshot_image
    rw [if_neg (by simp [allowedImgExts])]
    by_cases hwh : w < 1500 ∨ h < 1000
    · rw [if_pos hwh]
      constructor
      · intro hc; exact Except.noConfusion hc
      · rintro ⟨h1, h2, _⟩; omega
    · rw [if_neg hwh]
      by_cases hr : floatAspectExceeds w h = true
      · rw [if_pos hr]
        constructor
        · intro hc; exact Except.noConfusion hc
        · rintro ⟨_, _, hf⟩
          rw [hr] at hf
          exact Bool.noConfusion hf
      · rw [if_neg hr]
        exact ⟨fun _ => ⟨by omega, by omega, Bool.not_eq_true _ ▸ hr⟩, fun _ => rfl⟩
  · intro w h
    unfold check_thumbnail_image
    rw [if_neg (by simp [allowedImgExts])]
    by_cases hwh : w < 900 ∨ h < 600
    · rw [if_pos hwh]
      constructor
      · intro hc; exact Except.noConfusion hc
      · rintro ⟨h1, h2, _⟩; omega
    · rw [if_neg hwh]
      by_cases hr : floatAspectExceeds w h = true
      · rw [if_pos hr]
        constructor
        · intro hc; exact Except.noConfusion hc
        · rintro ⟨_, _, hf⟩
          rw [hr] at hf
          exact Bool.noConfusion hf
      · rw [if_neg hr]
        exact ⟨fun _ => ⟨by omega, by omega, Bool.not_eq_true _ ▸ hr⟩, fun _ => rfl⟩

theorem c6_amended_witness :
    |((1505 : Nat) : ℚ) / ((1000 : Nat) : ℚ) - 3/2| ≤ 1/100 + 1/4503599627370496 ∧
    floatAspectExceeds 1500 1000 = false ∧
    floatAspectExceeds 1510 1000 = true :=
  ⟨c6_amended_geometry.2.2.1 1505 1000 (by norm_num) rfl,
   c6_amended_geometry.2.2.2.1 1500 1000 (by norm_num) (by norm_num),
   c6_amended_geometry.2.2.2.2.1 1510 1000 (by norm_num) (Or.inl rfl)⟩

/-! ## Theme discovery (themes/actions.py lines 38-53)

A directory listing is modelled as its own inductive (rather than a nested
`List`) so that all recursion stays structural: a listing is a sequence of
named entries, each a plain file or a subdirectory with its own listing. -/

inductive FsEntries where
  | nil
  | consFile (name : String) (rest : FsEntries)
  | consDir (name : String) (sub : FsEntries) (rest : FsEntries)

/-- `(item / "theme.toml").exists()`: does the listing contain an entry of
that name (of either kind — `Path.exists` does not check the node type)? -/
def hasThemeToml : FsEntries → Bool
  | .nil => false
  | .consFile n rest => n == "theme.toml" || hasThemeToml rest
  | .consDir n _ rest => n == "theme.toml" || hasThemeToml rest

/-- `find_theme_files` (themes/actions.py lines 38-53) over a directory
listing; results are paths given as segment lists relative to the walked
directory.  For each entry in iteration order: plain files are skipped; a
subdirectory containing `theme.toml` contributes that descriptor's path and
is not recursed into; any other subdirectory is walked recursively. -/
def find_theme_files : FsEntries → List (List String)
  | .nil => []
  | .consFile _ rest => find_theme_files rest
  | .consDir name sub rest =>
      (if hasThemeToml sub then [[name, "theme.toml"]]
       else (find_theme_files sub).map (fun p => name :: p))
        ++ find_theme_files rest

/-- A listing has a subdirectory entry `name` with listing `sub`. -/
inductive DirEntryAt : FsEntries → String → FsEntries → Prop where
  | head (n : String) (sub rest : FsEntries) : DirEntryAt (.consDir n sub rest) n sub
  | tailFile (m n : String) (sub rest : FsEntries) :
      DirEntryAt rest n sub → DirEntryAt (.consFile m rest) n sub
  | tailDir (m n : String) (s sub rest : FsEntries) :
      DirEntryAt rest n sub → DirEntryAt (.consDir m s rest) n sub

/-- The spec's terminal-node rule, as a reachability relation: a descriptor
path is reachable from a listing iff it goes through an immediate
subdirectory, stopping at the first subdirectory that directly contains a
descriptor and recursing (with the same rule) otherwise.  Entries that are
plain files of the walked directory itself are never considered. -/
inductive ThemePathSpec : FsEntries → List String → Prop where
  | found (es : FsEntries) (n : String) (sub : FsEntries) :
      DirEntryAt es n sub → hasThemeToml sub = true →
      ThemePathSpec es [n, "theme.toml"]
  | deeper (es : FsEntries) (n : String) (sub : FsEntries) (p : List String) :
      DirEntryAt es n sub → hasThemeToml sub = false →
      ThemePathSpec sub p → ThemePathSpec es (n :: p)

/-- The claim's example tree: `root/theme1/theme.toml`,
`root/sub/theme2/theme.toml`, `root/empty_dir/`. -/
def exampleTree : FsEntries :=
  .consDir "theme1" (.consFile "theme.toml" .nil)
    (.consDir "sub" (.consDir "theme2" (.consFile "theme.toml" .nil) .nil)
      (.consDir "empty_dir" .nil .nil))

/-- A subdirectory entry that directly contains a descriptor contributes
its descriptor path wherever the entry sits in the listing. -/
theorem dirEntry_found_mem (es : FsEntries) (n : String) (sub : FsEntries)
    (hat : DirEntryAt es n sub) :
    hasThemeToml sub = true → [n, "theme.toml"] ∈ find_theme_files es := by
  induction hat with
  | head n2 sub2 rest =>
      intro ht
      rw [find_theme_files, if_pos ht]
      simp
  | tailFile m n2 sub2 rest h ih =>
      intro ht
      rw [find_theme_files]
      exact ih ht
  | tailDir m n2 s2 sub2 rest h ih =>
      intro ht
      rw [find_theme_files]
      exact List.mem_append_right _ (ih ht)

/-- A descriptor found by recursing into a descriptor-free subdirectory is
reported with that subdirectory's name prefixed. -/
theorem dirEntry_deeper_mem (es : FsEntries) (n : String) (sub : FsEntries)
    (hat : DirEntryAt es n sub) :
    ∀ q, hasThemeToml sub = false → q ∈ find_theme_files sub →
      n :: q ∈ find_theme_files es := by
  induction hat with
  | head n2 sub2 rest =>
      intro q ht hq
      rw [find_theme_files, if_neg (by simp [ht])]
      exact List.mem_append_left _ (List.mem_map.mpr ⟨q, hq, rfl⟩)
  | tailFile m n2 sub2 rest h ih =>
      intro q ht hq
      rw [find_theme_files]
      exact ih q ht hq
  | tailDir m n2 s2 sub2 rest h ih =>
      intro q ht hq
      rw [find_theme_files]
      exact List.mem_append_right _ (ih q ht hq)

/-- **C8.**  Discovery returns exactly the descriptor paths reachable by the
terminal-node rule — an immediate subdirectory that directly contains a
descriptor contributes it and is not recursed into, one without is walked
recursively, files directly in the walked directory are never considered —
and over the claim's example tree it returns exactly the two descriptor
paths. -/
theorem c8_discovery_terminal_rule :
    (∀ (es : FsEntries) (p : List String),
        p ∈ find_theme_files es ↔ ThemePathSpec es p) ∧
    find_theme_files exampleTree =
      [["theme1", "theme.toml"], ["sub", "theme2", "theme.toml"]] := by
  refine ⟨?_, rfl⟩
  intro es p
  constructor
  · intro hmem
    induction es generalizing p with
    | nil => simp [find_theme_files] at hmem
    | consFile n rest ih =>
        rw [find_theme_files] at hmem
        exact
          match ih p hmem with
          | .found _ n2 sub h1 h2 => .found _ n2 sub (.tailFile n n2 sub rest h1) h2
          | .deeper _ n2 sub qp h1 h2 h3 =>
              .deeper _ n2 sub qp (.tailFile n n2 sub rest h1) h2 h3
    | consDir n sub rest ihsub ihrest =>
        rw [find_theme_files] at hmem
        rcases List.mem_append.mp hmem with hin | hin
        · by_cases ht : hasThemeToml sub
          · rw [if_pos ht] at hin
            have hp : p = [n, "theme.toml"] := by simpa using hin
            subst hp
            exact .found _ n sub (.head n sub rest) ht
          · rw [if_neg ht] at hin
            obtain ⟨q, hq, hqp⟩ := List.mem_map.mp hin
            subst hqp
            exact .deeper _ n sub q (.head n sub rest)
              (by simpa using ht) (ihsub q hq)
        · exact
            match ihrest p hin with
            | .found _ n2 sub2 h1 h2 =>
                .found _ n2 sub2 (.tailDir n n2 sub sub2 rest h1) h2
            | .deeper _ n2 sub2 qp h1 h2 h3 =>
                .deeper _ n2 sub2 qp (.tailDir n n2 sub sub2 rest h1) h2 h3
  · intro hspec
    induction hspec with
    | found es2 n sub hat ht => exact dirEntry_found_mem es2 n sub hat ht
    | deeper es2 n sub q hat ht hsp ihq => exact dirEntry_deeper_mem es2 n sub hat q ht ihq

/-! ## Theme reconciliation (themes/actions.py lines 56-101)

`sync_themes` is modelled as a pure function of its inputs: the discovered
themes (identity key = theme directory relative to the root, paired with the
result of `load_theme_metadata` for that theme — the dict comprehension at
lines 64-67 evaluates these loads in discovery order with **no** exception
handling) and the current inventory (the `HugoTheme` rows, in table order).
`@transaction.atomic` plus an uncaught exception means no mutation happens
at all on failure, so the failure case returns only the error.  The
`existing_themes` queryset is evaluated (and cached) at line 70, before any
creation, so membership tests during the loops use the pre-sync
snapshot. -/

/-- One `HugoTheme` inventory row (the columns `sync_themes` touches). -/
structure ThemeRecord where
  name : String
  relative_dir : String
  description : String
  active : Bool
  demosite : String
  screenshot : String
  thumbnail : String

/-- `HugoTheme.objects.create(...)` at lines 87-95: copy name/description
from the descriptor, mark active, `demosite or ""`, attach the two resolved
image files (modelled by their upload names). -/
def mkThemeRecord (dir : String) (m : ThemeMetadata) : ThemeRecord :=
  ⟨m.name, dir, m.description, true, m.demosite.getD "",
   m.screenshot.fname, m.thumbnail.fname⟩

/-- The dict comprehension at lines 64-67: evaluate each load in order; the
first raised error propagates out of `sync_themes` unhandled. -/
def collectThemes :
    List (String × Except ThemeLoadErr ThemeMetadata) →
      Except ThemeLoadErr (List (String × ThemeMetadata))
  | [] => .ok []
  | (_, .error e) :: _ => .error e
  | (k, .ok m) :: rest =>
      match collectThemes rest with
      | .error e => .error e
      | .ok l => .ok ((k, m) :: l)

/-- The creation pass (lines 72-95): a row for every available theme whose
key is not among the existing keys. -/
def syncCreated (available : List (String × ThemeMetadata))
    (existingKeys : List String) : List ThemeRecord :=
  (available.filter fun p => !(decide (p.1 ∈ existingKeys))).map
    fun p => mkThemeRecord p.1 p.2

/-- The deactivation pass (lines 97-101): `update(active=False)` touches
every row whose `relative_dir` is an existing key absent from the available
set; other rows are untouched. -/
def syncDeactivate (existingKeys availKeys : List String)
    (rows : List ThemeRecord) : List ThemeRecord :=
  rows.map fun r =>
    if r.relative_dir ∈ existingKeys ∧ r.relative_dir ∉ availKeys
    then { r with active := false } else r

/-- `sync_themes` (themes/actions.py lines 56-101). -/
def sync_themes (discovered : List (String × Except ThemeLoadErr ThemeMetadata))
    (inventory : List ThemeRecord) : Except ThemeLoadErr (List ThemeRecord) :=
  match collectThemes discovered with
  | .error e => .error e
  | .ok available =>
      .ok (syncDeactivate (inventory.map fun r => r.relative_dir)
        (available.map Prod.fst)
        (inventory ++ syncCreated available (inventory.map fun r => r.relative_dir)))

theorem collectThemes_keys (l : List (String × Except ThemeLoadErr ThemeMetadata))
    (a : List (String × ThemeMetadata)) (h : collectThemes l = .ok a) :
    a.map Prod.fst = l.map Prod.fst := by
  induction l generalizing a with
  | nil =>
      have := Except.ok.inj h
      subst this
      rfl
  | cons hd tl ih =>
      obtain ⟨k, r⟩ := hd
      cases r with
      | error e => exact Except.noConfusion h
      | ok m =>
          rw [collectThemes] at h
          cases hc : collectThemes tl with
          | error e => rw [hc] at h; exact Except.noConfusion h
          | ok l2 =>
              rw [hc] at h
              have := Except.ok.inj h
              subst this
              simp [ih l2 hc]

theorem collectThemes_error_of_mem (l : List (String × Except ThemeLoadErr ThemeMetadata))
    (k : String) (e : ThemeLoadErr) (h : (k, Except.error e) ∈ l) :
    ∃ e2, collectThemes l = .error e2 := by
  induction l with
  | nil => simp at h
  | cons hd tl ih =>
      obtain ⟨k2, r2⟩ := hd
      cases r2 with
      | error e2 => exact ⟨e2, rfl⟩
      | ok m =>
          rcases List.mem_cons.mp h with heq | htl
          · exact absurd (congrArg Prod.snd heq) (by simp)
          · obtain ⟨e2, he2⟩ := ih htl
            exact ⟨e2, by rw [collectThemes, he2]⟩

/-- What one `sync_themes` run does to the pre-existing row at index `i`:
kept identical when its key was discovered, kept with `active := False`
otherwise — in particular never deleted and never repositioned. -/
theorem sync_ok_getElem (discovered : List (String × Except ThemeLoadErr ThemeMetadata))
    (inv res : List ThemeRecord) (h : sync_themes discovered inv = .ok res)
    (i : Nat) (r : ThemeRecord) (hi : inv[i]? = some r) :
    res[i]? = some (if r.relative_dir ∈ discovered.map Prod.fst then r
      else { r with active := false }) := by
  unfold sync_themes at h
  cases hc : collectThemes discovered with
  | error e => rw [hc] at h; exact Except.noConfusion h
  | ok available =>
      rw [hc] at h
      have hres := Except.ok.inj h
      subst hres
      have hkeys : available.map Prod.fst = discovered.map Prod.fst :=
        collectThemes_keys _ _ hc
      have hlen : i < inv.length := by
        rcases List.getElem?_eq_some.mp hi with ⟨hl, _⟩
        exact hl
      have hrmem : r ∈ inv := by
        rcases List.getElem?_eq_some.mp hi with ⟨hl, he⟩
        exact he ▸ List.getElem_mem hl
      have hex : r.relative_dir ∈ inv.map fun r => r.relative_dir :=
        List.mem_map_of_mem _ hrmem
      unfold syncDeactivate
      rw [List.getElem?_map, List.getElem?_append_left hlen, hi]
      by_cases hd : r.relative_dir ∈ discovered.map Prod.fst
      · rw [if_pos hd]
        have hno : ¬(r.relative_dir ∈ (inv.map fun r => r.relative_dir) ∧
            r.relative_dir ∉ available.map Prod.fst) := by
          rintro ⟨_, hno⟩
          exact hno (hkeys ▸ hd)
        simp only [Option.map_some']
        rw [if_neg hno]
      · rw [if_neg hd]
        have hyes : r.relative_dir ∈ (inv.map fun r => r.relative_dir) ∧
            r.relative_dir ∉ available.map Prod.fst :=
          ⟨hex, fun hmem => hd (hkeys ▸ hmem)⟩
        simp only [Option.map_some']
        rw [if_pos hyes]

/-- A previously known theme whose directory is gone from disk. -/
def themeGone : ThemeRecord :=
  ⟨"Gone", "gone", "old", true, "", "screenshot.png", "tn.png"⟩

/-- A previously deactivated theme whose directory is present on disk, with
an inventory copy that differs from the on-disk descriptor. -/
def recPresent : ThemeRecord :=
  ⟨"Present", "present", "desc", false, "", "screenshot.png", "tn.png"⟩

/-- **C2, counterexample.**  One theme whose descriptor fails to load makes
the whole `sync_themes` run abort with that error: the other discovered
theme is *not* created and the stale inventory entry is *not* deactivated
(no inventory results at all — `@transaction.atomic` discards everything on
the uncaught exception), against the claimed failure isolation. -/
theorem c2_counterexample_no_isolation :
    sync_themes
      [("bad", Except.error ThemeLoadErr.validationError),
       ("good", Except.ok metaNoAuthors)]
      [themeGone] = Except.error ThemeLoadErr.validationError := rfl

/-- **C2, amended.**  If loading any discovered theme's descriptor fails,
`sync_themes` propagates a load error and performs no reconciliation at all:
no creation and no deactivation happens for any other theme. -/
theorem c2_amended_load_failure_aborts
    (discovered : List (String × Except ThemeLoadErr ThemeMetadata))
    (inv : List ThemeRecord) (k : String) (e : ThemeLoadErr)
    (h : (k, Except.error e) ∈ discovered) :
    ∃ e2, sync_themes discovered inv = Except.error e2 := by
  obtain ⟨e2, he2⟩ := collectThemes_error_of_mem discovered k e h
  exact ⟨e2, by unfold sync_themes; rw [he2]⟩

theorem c2_amended_witness :
    ∃ e2, sync_themes
      [("bad", Except.error ThemeLoadErr.validationError),
       ("good", Except.ok metaNoAuthors)]
      [themeGone] = Except.error e2 :=
  c2_amended_load_failure_aborts _ [themeGone] "bad" ThemeLoadErr.validationError
    (by simp)

/-- **C9.**  Every inventory row that existed before a successful
`sync_themes` run still exists afterwards (same position, possibly with
`active := false`); a row whose identity key is absent from the discovered
set is exactly deactivated, never deleted. -/
theorem c9_deactivate_never_delete
    (discovered : List (String × Except ThemeLoadErr ThemeMetadata))
    (inv res : List ThemeRecord) (h : sync_themes discovered inv = .ok res)
    (i : Nat) (r : ThemeRecord) (hi : inv[i]? = some r) :
    (res[i]? = some r ∨ res[i]? = some { r with active := false }) ∧
    (r.relative_dir ∉ discovered.map Prod.fst →
      res[i]? = some { r with active := false }) := by
  have hp := sync_ok_getElem discovered inv res h i r hi
  by_cases hd : r.relative_dir ∈ discovered.map Prod.fst
  · rw [if_pos hd] at hp
    exact ⟨Or.inl hp, fun hn => absurd hd hn⟩
  · rw [if_neg hd] at hp
    exact ⟨Or.inr hp, fun _ => hp⟩

/-- **C10.**  An inventory row whose identity key is among the discovered
themes is left entirely unchanged by `sync_themes`: same name, description,
asset references and active flag — a deactivated theme stays deactivated and
descriptor changes are not copied in. -/
theorem c10_present_entry_unchanged
    (discovered : List (String × Except ThemeLoadErr ThemeMetadata))
    (inv res : List ThemeRecord) (h : sync_themes discovered inv = .ok res)
    (i : Nat) (r : ThemeRecord) (hi : inv[i]? = some r)
    (hd : r.relative_dir ∈ discovered.map Prod.fst) : res[i]? = some r := by
  have hp := sync_ok_getElem discovered inv res h i r hi
  rwa [if_pos hd] at hp

/-- The inventory produced by syncing `[("present", ok ...)]` against
`[recPresent, themeGone]`: the present (deactivated, stale-copy) row
untouched, the gone row deactivated in place, nothing created. -/
def syncResultExample : List ThemeRecord :=
  [recPresent, ⟨"Gone", "gone", "old", false, "", "screenshot.png", "tn.png"⟩]

theorem c9_witness :
    (syncResultExample[1]? = some themeGone ∨
      syncResultExample[1]? = some { themeGone with active := false }) ∧
    (themeGone.relative_dir ∉
        ([("present", Except.ok metaNoAuthors)] :
          List (String × Except ThemeLoadErr ThemeMetadata)).map Prod.fst →
      syncResultExample[1]? = some { themeGone with active := false }) :=
  c9_deactivate_never_delete [("present", Except.ok metaNoAuthors)]
    [recPresent, themeGone] syncResultExample rfl 1 themeGone rfl

theorem c10_witness : syncResultExample[0]? = some recPresent :=
  c10_present_entry_unchanged [("present", Except.ok metaNoAuthors)]
    [recPresent, themeGone] syncResultExample rfl 0 recPresent rfl
    (by simp [recPresent])

/-! ### C3 -/

theorem tlookup_mapped_update (base upd : Table) (k : String) :
    tlookup (base.map fun p => (p.1, (tlookup upd p.1).getD p.2)) k =
      (tlookup base k).map fun w => (tlookup upd k).getD w := by
  induction base with
  | nil => rfl
  | cons q rest ih =>
      obtain ⟨k1, v1⟩ := q
      by_cases h : k1 = k
      · subst h
        simp [tlookup]
      · simp [tlookup, h, ih]

theorem tlookup_filter_base_none (base upd : Table) (k : String)
    (hb : tlookup base k = none) :
    tlookup (upd.filter fun p => (tlookup base p.1).isNone) k = tlookup upd k := by
  induction upd with
  | nil => rfl
  | cons q rest ih =>
      obtain ⟨k2, v2⟩ := q
      by_cases h : k2 = k
      · subst h
        have hkeep : (tlookup base k2).isNone = true := by rw [hb]; rfl
        simp [List.filter_cons, hkeep, tlookup]
      · by_cases hk : (tlookup base k2).isNone
        · simp [List.filter_cons, hk, tlookup, h, ih]
        · simp [List.filter_cons, hk, tlookup, h, ih]

/-- **C3, amended.**  On a key collision between the extension bag and a
modeled field, the *bag's* entry wins in the emitted document: the
serializer runs `data.update(__pydantic_extra__)`, and `dict.update`
overwrites.  (The schema field does not take precedence — though a parse can
never produce such a collision, since recognised keys are routed to
fields.) -/
theorem c3_amended_extra_wins (c : HugoConfig) (k : String) (v : Value)
    (h : tlookup c.extra k = some v) :
    tlookup (hugo_config_to_toml c) k = some v := by
  unfold hugo_config_to_toml dictUpdate
  rw [tlookup_append, tlookup_mapped_update]
  cases hb : tlookup (specTable (HugoConfig.specs c)) k with
  | some w => simp [oor, h]
  | none =>
      simp only [Option.map_none', oor]
      rw [tlookup_filter_base_none _ _ _ hb]
      exact h

/-- A configuration whose extension bag collides with the modeled `title`
field (constructed directly — a parse never yields this). -/
def cfgCollide : HugoConfig :=
  ⟨"https://example.com/", none, none, none, none, none, none, none, none,
   none, none, none, none, none, none, none, none, none, none, none, none,
   none, none, none, none, none, none, none, none, none, none, none, none,
   none, none, none, none, none, none, none, none, none, none, none, none,
   none, none, none, none, none, none, some "Model", none,
   [("title", Value.str "Extra")]⟩

/-- **C3, counterexample.**  Serializing `cfgCollide` emits the extension
bag's value `"Extra"` at the colliding key `title`, although the modeled
field holds `"Model"` — the modeled field does *not* take precedence. -/
theorem c3_counterexample_field_loses :
    cfgCollide.title = some "Model" ∧
    tlookup (hugo_config_to_toml cfgCollide) "title" = some (Value.str "Extra") :=
  ⟨rfl, rfl⟩

theorem c3_amended_witness :
    tlookup (hugo_config_to_toml cfgCollide) "title" = some (Value.str "Extra") :=
  c3_amended_extra_wins cfgCollide "title" (Value.str "Extra") rfl
